/-
Verification of the Gaussian HMM output model
(src/sktime/markovprocess/bhmm/output_models/gaussian.py).

The Python code operates on numpy float64 arrays.  We embed float64 values
shallowly as the type `Fl`: either NaN, +inf, -inf, or a finite real number.
The arithmetic operations below follow the IEEE-754 rules the code relies on
(0/0 = NaN, 0 * NaN = NaN, comparisons with NaN are false, ...); rounding is
not modelled (finite values carry exact reals), and negative zero is
identified with zero.  Randomness (`np.random.randn`, `np.random.chisquare`)
is modelled by oracle functions supplying the drawn values.
-/
import Mathlib

set_option maxRecDepth 10000

/-- A float64 value: NaN, +infinity, -infinity, or a finite real. -/
inductive Fl where
  | nan : Fl
  | pinf : Fl
  | ninf : Fl
  | fin : ℝ → Fl

namespace Fl

/-- IEEE negation. -/
def neg : Fl → Fl
  | nan => nan
  | pinf => ninf
  | ninf => pinf
  | fin x => fin (-x)

/-- IEEE addition. -/
def add : Fl → Fl → Fl
  | nan, _ => nan
  | _, nan => nan
  | pinf, ninf => nan
  | ninf, pinf => nan
  | pinf, _ => pinf
  | _, pinf => pinf
  | ninf, _ => ninf
  | _, ninf => ninf
  | fin x, fin y => fin (x + y)

/-- IEEE subtraction (`a - b = a + (-b)`). -/
def sub (a b : Fl) : Fl := add a (neg b)

/-- IEEE multiplication (`0 * inf = NaN`). -/
noncomputable def mul : Fl → Fl → Fl
  | nan, _ => nan
  | _, nan => nan
  | pinf, pinf => pinf
  | pinf, ninf => ninf
  | ninf, pinf => ninf
  | ninf, ninf => pinf
  | pinf, fin y => if y = 0 then nan else if 0 < y then pinf else ninf
  | ninf, fin y => if y = 0 then nan else if 0 < y then ninf else pinf
  | fin x, pinf => if x = 0 then nan else if 0 < x then pinf else ninf
  | fin x, ninf => if x = 0 then nan else if 0 < x then ninf else pinf
  | fin x, fin y => fin (x * y)

/-- IEEE division (`0/0 = NaN`, `x/0 = ±inf` for finite nonzero `x`,
negative zero is not modelled). -/
noncomputable def div : Fl → Fl → Fl
  | nan, _ => nan
  | _, nan => nan
  | pinf, pinf => nan
  | pinf, ninf => nan
  | ninf, pinf => nan
  | ninf, ninf => nan
  | pinf, fin y => if 0 ≤ y then pinf else ninf
  | ninf, fin y => if 0 ≤ y then ninf else pinf
  | fin _, pinf => fin 0
  | fin _, ninf => fin 0
  | fin x, fin y =>
      if y = 0 then (if x = 0 then nan else if 0 < x then pinf else ninf)
      else fin (x / y)

/-- IEEE square root (`sqrt` of a negative value or -inf is NaN). -/
noncomputable def sqrt : Fl → Fl
  | nan => nan
  | pinf => pinf
  | ninf => nan
  | fin x => if x < 0 then nan else fin (Real.sqrt x)

/-- IEEE strict order: any comparison involving NaN is false. -/
def lt : Fl → Fl → Prop
  | nan, _ => False
  | _, nan => False
  | pinf, _ => False
  | _, pinf => True
  | ninf, ninf => False
  | ninf, _ => True
  | _, ninf => False
  | fin x, fin y => x < y


end Fl

/-- A numpy float64 array of dimension 0, 1 or 2 (row-major values).
Two-dimensional arrays are assumed rectangular, as produced by
`np.array` on well-formed nested lists. -/
inductive NDArr where
  | scalar : Fl → NDArr
  | vec : List Fl → NDArr
  | mat : List (List Fl) → NDArr

namespace NDArr

/-- The numpy `ndarray.shape`. -/
def shape : NDArr → List ℕ
  | scalar _ => []
  | vec xs => [xs.length]
  | mat xss => [xss.length, (xss.getD 0 []).length]

/-- The numpy `ndarray.squeeze()`: drop every axis of length 1
(a shape-`(1,)` vector becomes a 0-d scalar). -/
def squeeze : NDArr → NDArr
  | scalar x => scalar x
  | vec xs => if xs.length = 1 then scalar (xs.getD 0 Fl.nan) else vec xs
  | mat xss =>
      if xss.length = 1 ∧ (xss.getD 0 []).length = 1 then
        scalar ((xss.getD 0 []).getD 0 Fl.nan)
      else if xss.length = 1 then vec (xss.getD 0 [])
      else if (xss.getD 0 []).length = 1 then vec (xss.map (fun r => r.getD 0 Fl.nan))
      else mat xss

/-- The stored values, flattened row-major. -/
def flat : NDArr → List Fl
  | scalar x => [x]
  | vec xs => xs
  | mat xss => xss.foldr (fun r acc => r ++ acc) []

end NDArr

/-- A dynamically typed Python value, as needed for the constructor's
`n_states` argument (which `sub_output_model` erroneously binds to an
ndarray). -/
inductive PyVal where
  | int : ℕ → PyVal
  | arr : NDArr → PyVal
  | pynone : PyVal

/-- The Python exceptions the embedded code can raise. -/
inductive PyErr where
  | valueError : PyErr
  | typeError : PyErr
  | runtimeError : PyErr
deriving DecidableEq

/-- Python `m == f` between an int `m` and a float64 value `f`
(false for NaN and infinities). -/
def natEqFl (m : ℕ) (f : Fl) : Prop :=
  match f with
  | Fl.fin x => (m : ℝ) = x
  | _ => False

open Classical in
/-- Python evaluation of `shape != (n_states,)` (returning the value of
`shape == (n_states,)`; the caller negates).  Tuples of different lengths
compare unequal without comparing elements; comparing an int with a
multi-element ndarray raises (ambiguous truth value). -/
noncomputable def shapeEqTuple (s : List ℕ) (nState : PyVal) : Except PyErr Bool :=
  match nState with
  | PyVal.int n => Except.ok (decide (s = [n]))
  | PyVal.pynone => Except.ok false
  | PyVal.arr a =>
      match s with
      | [m] =>
          match a with
          | NDArr.scalar x => Except.ok (decide (natEqFl m x))
          | NDArr.vec [x] => Except.ok (decide (natEqFl m x))
          | NDArr.vec _ => Except.error PyErr.valueError
          | NDArr.mat [[x]] => Except.ok (decide (natEqFl m x))
          | NDArr.mat _ => Except.error PyErr.valueError
      | _ => Except.ok false

/-- The state of a `GaussianOutputModel` object: the `n_states` recorded by
the base-class constructor (modelled from the spec: the base `OutputModel`
constructor records `n_states` and `ignore_outliers`; its code is not under
src/), and the `_means`/`_sigmas` float64 arrays. -/
structure GOM where
  n_states : PyVal
  means : List Fl
  sigmas : List Fl
  ignore_outliers : Bool

/-- Embeds `GaussianOutputModel.__init__`.  `means` is converted with `np.array`
and its shape compared with `(n_states,)`; `sigmas` is additionally
`squeeze`d before the comparison; omitted arguments default to
`np.zeros(n_states)`. -/
noncomputable def mkGaussian (nStates : PyVal) (means sigmas : Option NDArr)
    (ignoreOutliers : Bool) : Except PyErr GOM := do
  let ms : List Fl ←
    match means with
    | some a => do
        let eq ← shapeEqTuple a.shape nStates
        if eq then pure a.flat else Except.error PyErr.valueError
    | none =>
        match nStates with
        | PyVal.int n => pure (List.replicate n (Fl.fin 0))
        | _ => Except.error PyErr.typeError
  let ss : List Fl ←
    match sigmas with
    | some a => do
        let b := a.squeeze
        let eq ← shapeEqTuple b.shape nStates
        if eq then pure b.flat else Except.error PyErr.valueError
    | none =>
        match nStates with
        | PyVal.int n => pure (List.replicate n (Fl.fin 0))
        | _ => Except.error PyErr.typeError
  pure ⟨nStates, ms, ss, ignoreOutliers⟩

/-- Embeds `GaussianOutputModel.sub_output_model(states)`: the source calls
`GaussianOutputModel(self._means[states], self._sigmas[states])`, binding
the fancy-indexed means to the positional `n_states` parameter, the
fancy-indexed sigmas to `means`, and leaving `sigmas = None`
(`ignore_outliers` takes its default `True`). -/
noncomputable def subOutputModel (m : GOM) (states : List ℕ) : Except PyErr GOM :=
  mkGaussian
    (PyVal.arr (NDArr.vec (states.map (fun i => m.means.getD i Fl.nan))))
    (some (NDArr.vec (states.map (fun i => m.sigmas.getD i Fl.nan))))
    none
    true

/-- Sum of a float64 array (`np.sum` / the accumulation in `np.dot`). -/
def FlSum (l : List Fl) : Fl := l.foldl Fl.add (Fl.fin 0)

/-- Embeds `np.dot(xs, ys)` for 1-d arrays. -/
noncomputable def dotFl (xs ys : List Fl) : Fl := FlSum (List.zipWith Fl.mul xs ys)

/-- Column `i` of a 2-d array: `rows[:, i]`. -/
def col (rows : List (List Fl)) (i : ℕ) : List Fl :=
  rows.map (fun r => r.getD i Fl.nan)

/-- Embeds `np.sum(rows, axis=0)` for a `(T, n)` array. -/
def sumAxis0 (rows : List (List Fl)) (n : ℕ) : List Fl :=
  (List.range n).map (fun i => FlSum (col rows i))

/-- Embeds `np.mean(xs)` for a 1-d array. -/
noncomputable def meanFl (xs : List Fl) : Fl :=
  Fl.div (FlSum xs) (Fl.fin (xs.length : ℝ))

/-- The loop `for i in range(N): a[i] += v i` over a float64 array `a`. -/
def accumAt (N : ℕ) (v : ℕ → Fl) (ms : List Fl) : List Fl :=
  (List.range N).foldl (fun acc i => acc.set i (Fl.add (acc.getD i Fl.nan) (v i))) ms

/-- The common shape of the two accumulation loops in
`GaussianOutputModel.fit`: starting from a zeroed parameter array and
`w_sum = np.zeros(N)`, for each trajectory `k` accumulate the per-state
numerator `v k i` into the parameter array and
`w_sum += np.sum(weights[k], axis=0)`. -/
noncomputable def fitLoop (K N : ℕ) (v : ℕ → ℕ → Fl) (w : List (List (List Fl))) :
    List Fl × List Fl :=
  (List.range K).foldl
    (fun acc k =>
      (accumAt N (v k) acc.1,
       List.zipWith Fl.add acc.2 (sumAxis0 (w.getD k []) N)))
    (List.replicate N (Fl.fin 0), List.replicate N (Fl.fin 0))

/-- The means-fitting loop of `GaussianOutputModel.fit`:
`self.means[i] += np.dot(weights[k][:, i], observations[k])`. -/
noncomputable def fitLoop1 (K N : ℕ) (o : List (List Fl)) (w : List (List (List Fl))) :
    List Fl × List Fl :=
  fitLoop K N (fun k i => dotFl (col (w.getD k []) i) (o.getD k [])) w

/-- The variance-fitting loop of `GaussianOutputModel.fit`: with
`Y = (observations[k] - self.means[i]) ** 2`,
`self.sigmas[i] += np.dot(weights[k][:, i], Y)`. -/
noncomputable def fitLoop2 (K N : ℕ) (o : List (List Fl)) (w : List (List (List Fl)))
    (means : List Fl) : List Fl × List Fl :=
  fitLoop K N (fun k i => dotFl (col (w.getD k []) i)
    ((o.getD k []).map (fun x =>
      Fl.mul (Fl.sub x (means.getD i Fl.nan)) (Fl.sub x (means.getD i Fl.nan))))) w

/-- The value `np.finfo(np.float64).eps` = 2^-52. -/
noncomputable def flEps : ℝ := 1 / 2 ^ 52

/-- The means array computed by `fit`:
`self._means = accumulated numerators / w_sum` (elementwise). -/
noncomputable def fitMeans (N : ℕ) (o : List (List Fl)) (w : List (List (List Fl))) :
    List Fl :=
  List.zipWith Fl.div (fitLoop1 o.length N o w).1 (fitLoop1 o.length N o w).2

/-- The sigmas array computed by `fit`:
`self._sigmas = np.sqrt(accumulated numerators / w_sum)` (elementwise),
using the just-computed means. -/
noncomputable def fitSigmas (N : ℕ) (o : List (List Fl)) (w : List (List (List Fl))) :
    List Fl :=
  (List.zipWith Fl.div (fitLoop2 o.length N o w (fitMeans N o w)).1
    (fitLoop2 o.length N o w (fitMeans N o w)).2).map Fl.sqrt

open Classical in
/-- Embeds `GaussianOutputModel.fit(observations, weights)`.  The method overwrites
`self._means` and `self._sigmas` in place and finally raises `RuntimeError`
when `np.any(self._sigmas < eps)`; the pair returned here is the mutated
object state together with the raised exception, if any.  (`range(N)` over a
non-int `self.n_states` raises `TypeError`.) -/
noncomputable def fit (m : GOM) (observations : List (List Fl))
    (weights : List (List (List Fl))) : GOM × Option PyErr :=
  match m.n_states with
  | PyVal.int N =>
      ({ m with means := fitMeans N observations weights,
                sigmas := fitSigmas N observations weights },
       if ∃ s ∈ fitSigmas N observations weights, Fl.lt s (Fl.fin flEps) then
         some PyErr.runtimeError
       else none)
  | _ => (m, some PyErr.typeError)

/-- One iteration of the per-state loop of `GaussianOutputModel.sample`
at state `i`: warn if the state has no observations; if it has any, draw a
new mean `randn * sigmas[i] / sqrt(n) + mean(obs)` (using the current
sigma); if it has at least two, then re-draw sigma as
`sqrt(mean((obs - means[i])**2)) / sqrt(chisq / n)` using the just-updated
mean.  The third accumulator component collects the states warned about. -/
noncomputable def sampleStep (observations : List (List Fl)) (randn chisq : ℕ → ℝ)
    (acc : List Fl × List Fl × List ℕ) (i : ℕ) : List Fl × List Fl × List ℕ :=
  let o := observations.getD i []
  let warns := if o.length = 0 then acc.2.2 ++ [i] else acc.2.2
  let means1 := if 0 < o.length then
      acc.1.set i (Fl.add (Fl.div (Fl.mul (Fl.fin (randn i)) (acc.2.1.getD i Fl.nan))
        (Fl.fin (Real.sqrt (o.length : ℝ)))) (meanFl o))
    else acc.1
  let sigmas1 := if 1 < o.length then
      acc.2.1.set i (Fl.div (Fl.sqrt (meanFl (o.map (fun v =>
          Fl.mul (Fl.sub v (means1.getD i Fl.nan)) (Fl.sub v (means1.getD i Fl.nan))))))
        (Fl.sqrt (Fl.div (Fl.fin (chisq i)) (Fl.fin (o.length : ℝ)))))
    else acc.2.1
  (means1, sigmas1, warns)

/-- The per-state loop of `GaussianOutputModel.sample` over states
`0, ..., N-1`. -/
noncomputable def sampleLoop (observations : List (List Fl)) (randn chisq : ℕ → ℝ)
    (N : ℕ) (ms ss : List Fl) (ws : List ℕ) : List Fl × List Fl × List ℕ :=
  (List.range N).foldl (sampleStep observations randn chisq) (ms, ss, ws)

/-- Embeds `GaussianOutputModel.sample(observations)`, with the normal and
chi-squared draws for state `i` supplied by the oracles `randn i` and
`chisq i`.  Returns the mutated state, the list of states warned about
(zero observations), and the raised exception, if any. -/
noncomputable def sample (m : GOM) (observations : List (List Fl))
    (randn chisq : ℕ → ℝ) : GOM × List ℕ × Option PyErr :=
  match m.n_states with
  | PyVal.int N =>
      let r := sampleLoop observations randn chisq N m.means m.sigmas []
      ({ m with means := r.1, sigmas := r.2.1 }, r.2.2, none)
  | _ => (m, [], some PyErr.typeError)

/-- Embeds `GaussianOutputModel.generate_observation_from_state(state_index)` with
the standard-normal draw `z`: `sigmas[state] * z + means[state]`. -/
noncomputable def generateObservationFromState (m : GOM) (stateIndex : ℕ) (z : ℝ) : Fl :=
  Fl.add (Fl.mul (m.sigmas.getD stateIndex Fl.nan) (Fl.fin z))
    (m.means.getD stateIndex Fl.nan)

/-- Embeds `GaussianOutputModel.generate_observation_trajectory(s_t)` with the
standard-normal draw at time `t` supplied by `randn t`.  The method reads
but never assigns `self._means`/`self._sigmas`, so the model state is
returned unchanged. -/
noncomputable def generateObservationTrajectory (m : GOM) (st : List ℕ)
    (randn : ℕ → ℝ) : GOM × List Fl :=
  (m, (List.range st.length).map (fun t =>
    Fl.add (Fl.mul (m.sigmas.getD (st.getD t 0) Fl.nan) (Fl.fin (randn t)))
      (m.means.getD (st.getD t 0) Fl.nan)))

/-- Spec-side formula: `w_sum[i] = Σ_k Σ_t weights[k][t,i]`. -/
def specWSum (K : ℕ) (w : List (List (List ℝ))) (i : ℕ) : ℝ :=
  ((List.range K).map (fun k => ((w.getD k []).map (fun r => r.getD i 0)).sum)).sum

/-- Spec-side formula: `mean_num[i] = Σ_k Σ_t weights[k][t,i] · observations[k][t]`. -/
def specMeanNum (K : ℕ) (o : List (List ℝ)) (w : List (List (List ℝ))) (i : ℕ) : ℝ :=
  ((List.range K).map (fun k =>
    (List.zipWith (fun r x => r.getD i 0 * x) (w.getD k []) (o.getD k [])).sum)).sum

/-- Spec-side formula: `means[i] = mean_num[i] / w_sum[i]`. -/
noncomputable def specMean (K : ℕ) (o : List (List ℝ)) (w : List (List (List ℝ))) (i : ℕ) : ℝ :=
  specMeanNum K o w i / specWSum K w i

/-- Spec-side formula:
`var_num[i] = Σ_k Σ_t weights[k][t,i] · (observations[k][t] − means[i])²`,
with `means[i]` the just-updated mean. -/
noncomputable def specVarNum (K : ℕ) (o : List (List ℝ)) (w : List (List (List ℝ))) (i : ℕ) : ℝ :=
  ((List.range K).map (fun k =>
    (List.zipWith (fun r x => r.getD i 0 * (x - specMean K o w i) ^ 2)
      (w.getD k []) (o.getD k [])).sum)).sum

/-- Spec-side formula: `sigmas[i] = sqrt(var_num[i] / w_sum[i])`. -/
noncomputable def specSigma (K : ℕ) (o : List (List ℝ)) (w : List (List (List ℝ)))
    (i : ℕ) : ℝ :=
  Real.sqrt (specVarNum K o w i / specWSum K w i)

/-- Lift a real observation trajectory to float64 values. -/
def finL (l : List ℝ) : List Fl := l.map Fl.fin

/-- Lift a real weight matrix to float64 values. -/
def finM (l : List (List ℝ)) : List (List Fl) := l.map finL

/-- The value of `means[j]` after `sample` has processed state `j`
(reading the pre-update sigma, as the loop does). -/
noncomputable def sampleMeanVal (obs : List (List Fl)) (randn : ℕ → ℝ)
    (ms ss : List Fl) (j : ℕ) : Fl :=
  if 0 < (obs.getD j []).length then
    Fl.add (Fl.div (Fl.mul (Fl.fin (randn j)) (ss.getD j Fl.nan))
      (Fl.fin (Real.sqrt ((obs.getD j []).length : ℝ)))) (meanFl (obs.getD j []))
  else ms.getD j Fl.nan

/-- The value of `sigmas[j]` after `sample` has processed state `j`
(reading the just-updated mean, as the loop does). -/
noncomputable def sampleSigmaVal (obs : List (List Fl)) (randn chisq : ℕ → ℝ)
    (ms ss : List Fl) (j : ℕ) : Fl :=
  if 1 < (obs.getD j []).length then
    Fl.div (Fl.sqrt (meanFl ((obs.getD j []).map (fun v =>
        Fl.mul (Fl.sub v (sampleMeanVal obs randn ms ss j))
          (Fl.sub v (sampleMeanVal obs randn ms ss j))))))
      (Fl.sqrt (Fl.div (Fl.fin (chisq j)) (Fl.fin ((obs.getD j []).length : ℝ))))
  else ss.getD j Fl.nan

-- ======================  Derived forms and theorems  ======================

namespace Fl

theorem add_fin (x y : ℝ) : add (fin x) (fin y) = fin (x + y) := rfl

theorem neg_fin (x : ℝ) : neg (fin x) = fin (-x) := rfl

theorem sub_fin (x y : ℝ) : sub (fin x) (fin y) = fin (x - y) := by
  show fin (x + -y) = fin (x - y)
  rw [← sub_eq_add_neg]

theorem mul_fin (x y : ℝ) : mul (fin x) (fin y) = fin (x * y) := rfl

theorem sub_nan_left (x : Fl) : sub nan x = nan := by cases x <;> rfl

theorem sub_nan_right (x : Fl) : sub x nan = nan := by cases x <;> rfl

theorem mul_nan_right (x : Fl) : mul x nan = nan := by cases x <;> rfl

theorem mul_nan_left (x : Fl) : mul nan x = nan := by cases x <;> rfl

theorem add_nan_right (x : Fl) : add x nan = nan := by cases x <;> rfl

theorem add_nan_left (x : Fl) : add nan x = nan := by cases x <;> rfl

theorem div_nan_left (x : Fl) : div nan x = nan := by cases x <;> rfl

theorem div_nan_right (x : Fl) : div x nan = nan := by cases x <;> rfl

theorem div_fin_of_ne (x y : ℝ) (hy : y ≠ 0) : div (fin x) (fin y) = fin (x / y) := by
  show (if y = 0 then (if x = 0 then nan else if 0 < x then pinf else ninf)
      else fin (x / y)) = fin (x / y)
  rw [if_neg hy]

theorem div_zero_zero : div (fin 0) (fin 0) = nan := by
  show (if (0 : ℝ) = 0 then (if (0 : ℝ) = 0 then nan else if (0:ℝ) < 0 then pinf else ninf)
      else fin (0 / 0)) = nan
  rw [if_pos rfl, if_pos rfl]

theorem sqrt_fin_of_nonneg (x : ℝ) (hx : 0 ≤ x) : sqrt (fin x) = fin (Real.sqrt x) := by
  show (if x < 0 then nan else fin (Real.sqrt x)) = fin (Real.sqrt x)
  rw [if_neg (not_lt.mpr hx)]

theorem sqrt_nan : sqrt nan = nan := rfl

theorem lt_fin_iff (x y : ℝ) : lt (fin x) (fin y) ↔ x < y := Iff.rfl

theorem not_lt_nan_left (x : Fl) : ¬ lt nan x := by cases x <;> exact not_false

theorem not_lt_nan_right (x : Fl) : ¬ lt x nan := by cases x <;> exact not_false

theorem not_lt_pinf_left (x : Fl) : ¬ lt pinf x := by cases x <;> exact not_false

end Fl

theorem getD_set_self {α : Type} (l : List α) (i : ℕ) (a d : α) (h : i < l.length) :
    (l.set i a).getD i d = a := by
  rw [List.getD_eq_getElem _ _ (by simpa using h)]
  exact List.getElem_set_self _

theorem getD_set_ne {α : Type} (l : List α) (i j : ℕ) (a d : α) (hne : j ≠ i) :
    (l.set i a).getD j d = l.getD j d := by
  rcases Nat.lt_or_ge j l.length with h | h
  · rw [List.getD_eq_getElem _ _ (by simpa using h), List.getD_eq_getElem _ _ h]
    simp [List.getElem_set_ne (Ne.symm hne)]
  · rw [List.getD_eq_default _ _ (by simpa using h), List.getD_eq_default _ _ h]

theorem getD_replicate_of_lt {α : Type} (n i : ℕ) (a d : α) (h : i < n) :
    (List.replicate n a).getD i d = a := by
  rw [List.getD_eq_getElem _ _ (by simpa using h)]
  exact List.getElem_replicate a _

theorem getD_range_map {α : Type} (f : ℕ → α) (n i : ℕ) (d : α) (h : i < n) :
    ((List.range n).map f).getD i d = f i := by
  rw [List.getD_eq_getElem _ _ (by simpa using h)]
  simp

theorem getD_zipWith (f : Fl → Fl → Fl) (l1 l2 : List Fl) (i : ℕ) (d : Fl)
    (h1 : i < l1.length) (h2 : i < l2.length) :
    (List.zipWith f l1 l2).getD i d = f (l1.getD i d) (l2.getD i d) := by
  rw [List.getD_eq_getElem _ _ (by simp [List.length_zipWith]; omega),
    List.getD_eq_getElem _ _ h1, List.getD_eq_getElem _ _ h2]
  exact List.getElem_zipWith

theorem FlSum_append_singleton (l : List Fl) (a : Fl) :
    FlSum (l ++ [a]) = Fl.add (FlSum l) a := by
  simp [FlSum, List.foldl_append]

theorem foldl_add_map_fin (l : List ℝ) (a : ℝ) :
    (l.map Fl.fin).foldl Fl.add (Fl.fin a) = Fl.fin (l.foldl (· + ·) a) := by
  induction l generalizing a with
  | nil => rfl
  | cons x xs ih => simpa [Fl.add_fin] using ih (a + x)

theorem FlSum_map_fin (l : List ℝ) : FlSum (l.map Fl.fin) = Fl.fin l.sum := by
  rw [FlSum, foldl_add_map_fin, List.sum_eq_foldl]

theorem zipWith_congr_fun {α β γ : Type} (f g : α → β → γ) (xs : List α) (ys : List β)
    (h : ∀ a b, f a b = g a b) : List.zipWith f xs ys = List.zipWith g xs ys := by
  induction xs generalizing ys with
  | nil => simp
  | cons a as ih =>
      cases ys with
      | nil => simp
      | cons b bs => simp [h, ih]

theorem dotFl_map_fin (xs ys : List ℝ) :
    dotFl (xs.map Fl.fin) (ys.map Fl.fin) = Fl.fin ((List.zipWith (· * ·) xs ys).sum) := by
  rw [dotFl, List.zipWith_map_left, List.zipWith_map_right]
  have h1 : List.zipWith (fun a b => Fl.mul (Fl.fin a) (Fl.fin b)) xs ys
      = (List.zipWith (· * ·) xs ys).map Fl.fin := by
    rw [List.map_zipWith]
    exact zipWith_congr_fun _ _ xs ys (fun a b => rfl)
  rw [h1, FlSum_map_fin]

theorem getD_finL (r : List ℝ) (i : ℕ) : (finL r).getD i (Fl.fin 0) = Fl.fin (r.getD i 0) :=
  List.getD_map r 0 Fl.fin

theorem col_finM (rows : List (List ℝ)) (i : ℕ) (h : ∀ r ∈ rows, i < r.length) :
    col (finM rows) i = (rows.map (fun r => r.getD i 0)).map Fl.fin := by
  rw [col, finM, List.map_map, List.map_map]
  refine List.map_congr_left (fun r hr => ?_)
  show (finL r).getD i Fl.nan = Fl.fin (r.getD i 0)
  rw [List.getD_eq_getElem _ _ (by simpa [finL] using h r hr),
    List.getD_eq_getElem _ _ (h r hr)]
  simp [finL]

theorem getD_finM (w : List (List ℝ)) (k : ℕ) : (finM w).getD k [] = finL (w.getD k []) := by
  have : (finM w).getD k (finL []) = finL (w.getD k []) := List.getD_map w [] finL
  simpa [finL] using this

theorem getD_finMM (w : List (List (List ℝ))) (k : ℕ) :
    (w.map finM).getD k [] = finM (w.getD k []) := by
  have : (w.map finM).getD k (finM []) = finM (w.getD k []) := List.getD_map w [] finM
  simpa [finM] using this

theorem accumAt_zero (v : ℕ → Fl) (ms : List Fl) : accumAt 0 v ms = ms := rfl

theorem accumAt_succ (N : ℕ) (v : ℕ → Fl) (ms : List Fl) :
    accumAt (N + 1) v ms
      = (accumAt N v ms).set N (Fl.add ((accumAt N v ms).getD N Fl.nan) (v N)) := by
  rw [accumAt, List.range_succ, List.foldl_append]
  rfl

theorem accumAt_length (N : ℕ) (v : ℕ → Fl) (ms : List Fl) :
    (accumAt N v ms).length = ms.length := by
  induction N with
  | zero => rfl
  | succ n ih => rw [accumAt_succ, List.length_set, ih]

theorem accumAt_getD (N : ℕ) (v : ℕ → Fl) (ms : List Fl) (h : N ≤ ms.length) (j : ℕ) :
    (accumAt N v ms).getD j Fl.nan
      = if j < N then Fl.add (ms.getD j Fl.nan) (v j) else ms.getD j Fl.nan := by
  induction N with
  | zero => simp [accumAt_zero]
  | succ n ih =>
      have hn : n ≤ ms.length := Nat.le_of_succ_le h
      rw [accumAt_succ]
      rcases Nat.lt_trichotomy j n with hj | hj | hj
      · rw [getD_set_ne _ _ _ _ _ (Nat.ne_of_lt hj), ih hn,
          if_pos hj, if_pos (Nat.lt_succ_of_lt hj)]
      · subst hj
        rw [getD_set_self _ _ _ _ (by rw [accumAt_length]; omega), ih hn,
          if_neg (lt_irrefl j), if_pos (Nat.lt_succ_self j)]
      · rw [getD_set_ne _ _ _ _ _ (Nat.ne_of_gt hj), ih hn,
          if_neg (by omega), if_neg (by omega)]

theorem fitLoop_zero (N : ℕ) (v : ℕ → ℕ → Fl) (w : List (List (List Fl))) :
    fitLoop 0 N v w = (List.replicate N (Fl.fin 0), List.replicate N (Fl.fin 0)) := rfl

theorem fitLoop_succ (K N : ℕ) (v : ℕ → ℕ → Fl) (w : List (List (List Fl))) :
    fitLoop (K + 1) N v w
      = (accumAt N (v K) (fitLoop K N v w).1,
         List.zipWith Fl.add (fitLoop K N v w).2 (sumAxis0 (w.getD K []) N)) := by
  rw [fitLoop, List.range_succ, List.foldl_append]
  rfl

theorem fitLoop_lengths (K N : ℕ) (v : ℕ → ℕ → Fl) (w : List (List (List Fl))) :
    (fitLoop K N v w).1.length = N ∧ (fitLoop K N v w).2.length = N := by
  induction K with
  | zero => simp [fitLoop_zero]
  | succ k ih =>
      rw [fitLoop_succ]
      refine ⟨?_, ?_⟩
      · rw [accumAt_length, ih.1]
      · rw [List.length_zipWith, ih.2, sumAxis0, List.length_map, List.length_range,
          Nat.min_self]

theorem fitLoop_fst_getD (K N : ℕ) (v : ℕ → ℕ → Fl) (w : List (List (List Fl)))
    (i : ℕ) (hi : i < N) :
    (fitLoop K N v w).1.getD i Fl.nan
      = FlSum ((List.range K).map (fun k => v k i)) := by
  induction K with
  | zero =>
      rw [fitLoop_zero]
      show (List.replicate N (Fl.fin 0)).getD i Fl.nan = FlSum []
      rw [getD_replicate_of_lt _ _ _ _ hi]
      rfl
  | succ k ih =>
      rw [fitLoop_succ,
        accumAt_getD _ _ _ (by rw [(fitLoop_lengths k N v w).1]) i, if_pos hi, ih,
        List.range_succ, List.map_append, List.map_singleton, FlSum_append_singleton]

theorem fitLoop_snd_getD (K N : ℕ) (v : ℕ → ℕ → Fl) (w : List (List (List Fl)))
    (i : ℕ) (hi : i < N) :
    (fitLoop K N v w).2.getD i Fl.nan
      = FlSum ((List.range K).map (fun k => FlSum (col (w.getD k []) i))) := by
  induction K with
  | zero =>
      rw [fitLoop_zero]
      show (List.replicate N (Fl.fin 0)).getD i Fl.nan = FlSum []
      rw [getD_replicate_of_lt _ _ _ _ hi]
      rfl
  | succ k ih =>
      have h2 := (fitLoop_lengths k N v w).2
      rw [fitLoop_succ,
        getD_zipWith _ _ _ _ _ (by omega)
          (by rw [sumAxis0, List.length_map, List.length_range]; omega),
        ih, sumAxis0, getD_range_map _ _ _ _ hi,
        List.range_succ, List.map_append, List.map_singleton, FlSum_append_singleton]

theorem finM_length (l : List (List ℝ)) : (finM l).length = l.length :=
  List.length_map l finL

open Classical in
theorem fit_of_int (m : GOM) (N : ℕ) (hN : m.n_states = PyVal.int N)
    (o : List (List Fl)) (w : List (List (List Fl))) :
    fit m o w
      = ({ m with means := fitMeans N o w, sigmas := fitSigmas N o w },
         if ∃ s ∈ fitSigmas N o w, Fl.lt s (Fl.fin flEps) then some PyErr.runtimeError
         else none) := by
  obtain ⟨ns, ms, ss, io⟩ := m
  have h : ns = PyVal.int N := hN
  subst h
  rfl

theorem fitLoop1_getD_fin (K N : ℕ) (oR : List (List ℝ)) (wR : List (List (List ℝ)))
    (i : ℕ) (hi : i < N) (hrow : ∀ k < K, ∀ r ∈ wR.getD k [], i < r.length) :
    (fitLoop1 K N (finM oR) (wR.map finM)).1.getD i Fl.nan
        = Fl.fin (specMeanNum K oR wR i)
      ∧ (fitLoop1 K N (finM oR) (wR.map finM)).2.getD i Fl.nan
        = Fl.fin (specWSum K wR i) := by
  constructor
  · rw [fitLoop1, fitLoop_fst_getD _ _ _ _ _ hi]
    have hmap : (List.range K).map
          (fun k => dotFl (col ((wR.map finM).getD k []) i) ((finM oR).getD k []))
        = ((List.range K).map (fun k =>
            (List.zipWith (fun r x => r.getD i 0 * x)
              (wR.getD k []) (oR.getD k [])).sum)).map Fl.fin := by
      rw [List.map_map]
      refine List.map_congr_left (fun k hk => ?_)
      have hk2 : k < K := List.mem_range.mp hk
      show dotFl (col ((wR.map finM).getD k []) i) ((finM oR).getD k []) = _
      rw [getD_finMM, getD_finM, col_finM _ _ (hrow k hk2), finL, dotFl_map_fin,
        List.zipWith_map_left]
      rfl
    rw [hmap, FlSum_map_fin]
    rfl
  · rw [fitLoop1, fitLoop_snd_getD _ _ _ _ _ hi]
    have hmap : (List.range K).map (fun k => FlSum (col ((wR.map finM).getD k []) i))
        = ((List.range K).map (fun k =>
            ((wR.getD k []).map (fun r => r.getD i 0)).sum)).map Fl.fin := by
      rw [List.map_map]
      refine List.map_congr_left (fun k hk => ?_)
      have hk2 : k < K := List.mem_range.mp hk
      show FlSum (col ((wR.map finM).getD k []) i) = _
      rw [getD_finMM, col_finM _ _ (hrow k hk2), FlSum_map_fin]
      rfl
    rw [hmap, FlSum_map_fin]
    rfl

theorem fitLoop2_getD_fin (K N : ℕ) (oR : List (List ℝ)) (wR : List (List (List ℝ)))
    (meansArg : List Fl) (mu : ℝ) (i : ℕ) (hi : i < N)
    (hrow : ∀ k < K, ∀ r ∈ wR.getD k [], i < r.length)
    (hmu : meansArg.getD i Fl.nan = Fl.fin mu) :
    (fitLoop2 K N (finM oR) (wR.map finM) meansArg).1.getD i Fl.nan
        = Fl.fin (((List.range K).map (fun k =>
            (List.zipWith (fun r x => r.getD i 0 * (x - mu) ^ 2)
              (wR.getD k []) (oR.getD k [])).sum)).sum)
      ∧ (fitLoop2 K N (finM oR) (wR.map finM) meansArg).2.getD i Fl.nan
        = Fl.fin (specWSum K wR i) := by
  constructor
  · rw [fitLoop2, fitLoop_fst_getD _ _ _ _ _ hi]
    have hmap : (List.range K).map (fun k => dotFl (col ((wR.map finM).getD k []) i)
          (((finM oR).getD k []).map (fun x =>
            Fl.mul (Fl.sub x (meansArg.getD i Fl.nan)) (Fl.sub x (meansArg.getD i Fl.nan)))))
        = ((List.range K).map (fun k =>
            (List.zipWith (fun r x => r.getD i 0 * (x - mu) ^ 2)
              (wR.getD k []) (oR.getD k [])).sum)).map Fl.fin := by
      rw [List.map_map]
      refine List.map_congr_left (fun k hk => ?_)
      have hk2 : k < K := List.mem_range.mp hk
      show dotFl (col ((wR.map finM).getD k []) i)
          (((finM oR).getD k []).map (fun x =>
            Fl.mul (Fl.sub x (meansArg.getD i Fl.nan)) (Fl.sub x (meansArg.getD i Fl.nan)))) = _
      rw [getD_finMM, getD_finM, hmu]
      have hsq : ((finL (oR.getD k [])).map (fun x =>
            Fl.mul (Fl.sub x (Fl.fin mu)) (Fl.sub x (Fl.fin mu))))
          = ((oR.getD k []).map (fun x => (x - mu) ^ 2)).map Fl.fin := by
        rw [finL, List.map_map, List.map_map]
        refine List.map_congr_left (fun x _ => ?_)
        show Fl.mul (Fl.sub (Fl.fin x) (Fl.fin mu)) (Fl.sub (Fl.fin x) (Fl.fin mu))
            = Fl.fin ((x - mu) ^ 2)
        rw [Fl.sub_fin, Fl.mul_fin, ← pow_two]
      rw [hsq, col_finM _ _ (hrow k hk2), dotFl_map_fin, List.zipWith_map_left,
        List.zipWith_map_right]
      rfl
    rw [hmap, FlSum_map_fin]
  · rw [fitLoop2, fitLoop_snd_getD _ _ _ _ _ hi]
    have hmap : (List.range K).map (fun k => FlSum (col ((wR.map finM).getD k []) i))
        = ((List.range K).map (fun k =>
            ((wR.getD k []).map (fun r => r.getD i 0)).sum)).map Fl.fin := by
      rw [List.map_map]
      refine List.map_congr_left (fun k hk => ?_)
      have hk2 : k < K := List.mem_range.mp hk
      show FlSum (col ((wR.map finM).getD k []) i) = _
      rw [getD_finMM, col_finM _ _ (hrow k hk2), FlSum_map_fin]
      rfl
    rw [hmap, FlSum_map_fin]
    rfl

theorem getD_nonneg_of_forall (r : List ℝ) (i : ℕ) (h : ∀ c ∈ r, 0 ≤ c) :
    0 ≤ r.getD i 0 := by
  rcases Nat.lt_or_ge i r.length with hlt | hge
  · rw [List.getD_eq_getElem _ _ hlt]
    exact h _ (List.getElem_mem hlt)
  · rw [List.getD_eq_default _ _ hge]

theorem sum_zipWith_nonneg {α β : Type} (g : α → β → ℝ) (l1 : List α) (l2 : List β)
    (h : ∀ a ∈ l1, ∀ b ∈ l2, 0 ≤ g a b) : 0 ≤ (List.zipWith g l1 l2).sum := by
  induction l1 generalizing l2 with
  | nil => simp
  | cons a as ih =>
      cases l2 with
      | nil => simp
      | cons b bs =>
          rw [List.zipWith_cons_cons, List.sum_cons]
          refine add_nonneg (h a (List.mem_cons_self a as) b (List.mem_cons_self b bs)) ?_
          exact ih bs (fun x hx y hy =>
            h x (List.mem_cons_of_mem a hx) y (List.mem_cons_of_mem b hy))

theorem specVarNum_nonneg (K : ℕ) (oR : List (List ℝ)) (wR : List (List (List ℝ)))
    (i : ℕ) (hwnn : ∀ k < K, ∀ r ∈ wR.getD k [], ∀ c ∈ r, (0:ℝ) ≤ c) :
    0 ≤ specVarNum K oR wR i := by
  refine List.sum_nonneg (fun y hy => ?_)
  obtain ⟨k, hk, rfl⟩ := List.mem_map.mp hy
  have hk2 : k < K := List.mem_range.mp hk
  refine sum_zipWith_nonneg _ _ _ (fun r hr x _ => ?_)
  exact mul_nonneg (getD_nonneg_of_forall r i (hwnn k hk2 r hr)) (sq_nonneg _)

theorem fitMeans_getD_fin (N : ℕ) (oR : List (List ℝ)) (wR : List (List (List ℝ)))
    (i : ℕ) (hi : i < N)
    (hrow : ∀ k < oR.length, ∀ r ∈ wR.getD k [], i < r.length)
    (hw : specWSum oR.length wR i ≠ 0) :
    (fitMeans N (finM oR) (wR.map finM)).getD i Fl.nan
      = Fl.fin (specMean oR.length oR wR i) := by
  have hK : (finM oR).length = oR.length := finM_length oR
  have hrow2 : ∀ k < (finM oR).length, ∀ r ∈ wR.getD k [], i < r.length := by
    rw [hK]; exact hrow
  obtain ⟨h1, h2⟩ := fitLoop1_getD_fin (finM oR).length N oR wR i hi hrow2
  have hlen := fitLoop_lengths (finM oR).length N
    (fun k j => dotFl (col ((wR.map finM).getD k []) j) ((finM oR).getD k [])) (wR.map finM)
  rw [fitMeans, getD_zipWith _ _ _ _ _ (by rw [fitLoop1, hlen.1]; exact hi)
      (by rw [fitLoop1, hlen.2]; exact hi), h1, h2,
    Fl.div_fin_of_ne _ _ (by rw [hK]; exact hw), specMean, hK]

theorem fitSigmas_getD_fin (N : ℕ) (oR : List (List ℝ)) (wR : List (List (List ℝ)))
    (i : ℕ) (hi : i < N)
    (hrow : ∀ k < oR.length, ∀ r ∈ wR.getD k [], i < r.length)
    (hwpos : 0 < specWSum oR.length wR i)
    (hwnn : ∀ k < oR.length, ∀ r ∈ wR.getD k [], ∀ c ∈ r, (0:ℝ) ≤ c) :
    (fitSigmas N (finM oR) (wR.map finM)).getD i Fl.nan
      = Fl.fin (specSigma oR.length oR wR i) := by
  have hK : (finM oR).length = oR.length := finM_length oR
  have hrow2 : ∀ k < (finM oR).length, ∀ r ∈ wR.getD k [], i < r.length := by
    rw [hK]; exact hrow
  have hmu : (fitMeans N (finM oR) (wR.map finM)).getD i Fl.nan
      = Fl.fin (specMean oR.length oR wR i) :=
    fitMeans_getD_fin N oR wR i hi hrow (ne_of_gt hwpos)
  obtain ⟨h1, h2⟩ := fitLoop2_getD_fin (finM oR).length N oR wR
    (fitMeans N (finM oR) (wR.map finM)) (specMean oR.length oR wR i) i hi hrow2 hmu
  have hlen := fitLoop_lengths (finM oR).length N
    (fun k j => dotFl (col ((wR.map finM).getD k []) j)
      (((finM oR).getD k []).map (fun x =>
        Fl.mul (Fl.sub x ((fitMeans N (finM oR) (wR.map finM)).getD j Fl.nan))
          (Fl.sub x ((fitMeans N (finM oR) (wR.map finM)).getD j Fl.nan)))))
    (wR.map finM)
  have hvar : ((List.range (finM oR).length).map (fun k =>
      (List.zipWith (fun r x => r.getD i 0 * (x - specMean oR.length oR wR i) ^ 2)
        (wR.getD k []) (oR.getD k [])).sum)).sum = specVarNum oR.length oR wR i := by
    rw [hK]; rfl
  have hnn : 0 ≤ specVarNum oR.length oR wR i / specWSum oR.length wR i :=
    div_nonneg (specVarNum_nonneg oR.length oR wR i hwnn) (le_of_lt hwpos)
  have hmap : (fitSigmas N (finM oR) (wR.map finM)).getD i Fl.nan
      = Fl.sqrt ((List.zipWith Fl.div
          (fitLoop2 (finM oR).length N (finM oR) (wR.map finM)
            (fitMeans N (finM oR) (wR.map finM))).1
          (fitLoop2 (finM oR).length N (finM oR) (wR.map finM)
            (fitMeans N (finM oR) (wR.map finM))).2).getD i Fl.nan) := by
    rw [fitSigmas]
    have hgm := @List.getD_map _ _ (List.zipWith Fl.div
      (fitLoop2 (finM oR).length N (finM oR) (wR.map finM)
        (fitMeans N (finM oR) (wR.map finM))).1
      (fitLoop2 (finM oR).length N (finM oR) (wR.map finM)
        (fitMeans N (finM oR) (wR.map finM))).2) Fl.nan i Fl.sqrt
    rw [Fl.sqrt_nan] at hgm
    exact hgm
  rw [hmap, getD_zipWith _ _ _ _ _ (by rw [fitLoop2, hlen.1]; exact hi)
      (by rw [fitLoop2, hlen.2]; exact hi), h1, h2, hvar,
    Fl.div_fin_of_ne _ _ (by rw [hK]; exact ne_of_gt hwpos), hK,
    Fl.sqrt_fin_of_nonneg _ hnn, specSigma]

theorem sampleLoop_zero (obs : List (List Fl)) (randn chisq : ℕ → ℝ)
    (ms ss : List Fl) (ws : List ℕ) :
    sampleLoop obs randn chisq 0 ms ss ws = (ms, ss, ws) := rfl

theorem sampleLoop_succ (obs : List (List Fl)) (randn chisq : ℕ → ℝ) (N : ℕ)
    (ms ss : List Fl) (ws : List ℕ) :
    sampleLoop obs randn chisq (N + 1) ms ss ws
      = sampleStep obs randn chisq (sampleLoop obs randn chisq N ms ss ws) N := by
  rw [sampleLoop, List.range_succ, List.foldl_append]
  rfl

theorem sampleStep_lengths (obs : List (List Fl)) (randn chisq : ℕ → ℝ)
    (acc : List Fl × List Fl × List ℕ) (i : ℕ) :
    (sampleStep obs randn chisq acc i).1.length = acc.1.length
      ∧ (sampleStep obs randn chisq acc i).2.1.length = acc.2.1.length := by
  rw [sampleStep]
  dsimp only
  constructor
  · by_cases h : 0 < (obs.getD i []).length
    · rw [if_pos h, List.length_set]
    · rw [if_neg h]
  · by_cases h1 : 1 < (obs.getD i []).length
    · rw [if_pos h1, List.length_set]
    · rw [if_neg h1]

theorem sampleLoop_lengths (obs : List (List Fl)) (randn chisq : ℕ → ℝ) (N : ℕ)
    (ms ss : List Fl) (ws : List ℕ) :
    (sampleLoop obs randn chisq N ms ss ws).1.length = ms.length
      ∧ (sampleLoop obs randn chisq N ms ss ws).2.1.length = ss.length := by
  induction N with
  | zero => exact ⟨rfl, rfl⟩
  | succ n ih =>
      rw [sampleLoop_succ]
      obtain ⟨h1, h2⟩ := sampleStep_lengths obs randn chisq
        (sampleLoop obs randn chisq n ms ss ws) n
      exact ⟨h1.trans ih.1, h2.trans ih.2⟩

theorem sampleLoop_getD_ge (obs : List (List Fl)) (randn chisq : ℕ → ℝ) (N : ℕ)
    (ms ss : List Fl) (ws : List ℕ) (j : ℕ) (hj : N ≤ j) :
    (sampleLoop obs randn chisq N ms ss ws).1.getD j Fl.nan = ms.getD j Fl.nan
      ∧ (sampleLoop obs randn chisq N ms ss ws).2.1.getD j Fl.nan = ss.getD j Fl.nan := by
  induction N with
  | zero => exact ⟨rfl, rfl⟩
  | succ n ih =>
      have hn : n ≤ j := Nat.le_of_succ_le hj
      have hne : j ≠ n := by omega
      obtain ⟨ih1, ih2⟩ := ih hn
      rw [sampleLoop_succ, sampleStep]
      dsimp only
      constructor
      · by_cases h : 0 < (obs.getD n []).length
        · rw [if_pos h, getD_set_ne _ _ _ _ _ hne]
          exact ih1
        · rw [if_neg h]
          exact ih1
      · by_cases h1 : 1 < (obs.getD n []).length
        · rw [if_pos h1, getD_set_ne _ _ _ _ _ hne]
          exact ih2
        · rw [if_neg h1]
          exact ih2

theorem sampleLoop_getD_lt (obs : List (List Fl)) (randn chisq : ℕ → ℝ) (N : ℕ)
    (ms ss : List Fl) (ws : List ℕ) (hm : N ≤ ms.length) (hs : N ≤ ss.length)
    (j : ℕ) (hj : j < N) :
    (sampleLoop obs randn chisq N ms ss ws).1.getD j Fl.nan
        = sampleMeanVal obs randn ms ss j
      ∧ (sampleLoop obs randn chisq N ms ss ws).2.1.getD j Fl.nan
        = sampleSigmaVal obs randn chisq ms ss j := by
  induction N with
  | zero => omega
  | succ n ih =>
      rcases Nat.lt_or_ge j n with hjn | hjn
      · obtain ⟨ih1, ih2⟩ := ih (Nat.le_of_succ_le hm) (Nat.le_of_succ_le hs) hjn
        rw [sampleLoop_succ, sampleStep]
        dsimp only
        have hne : j ≠ n := by omega
        constructor
        · by_cases h : 0 < (obs.getD n []).length
          · rw [if_pos h, getD_set_ne _ _ _ _ _ hne]
            exact ih1
          · rw [if_neg h]
            exact ih1
        · by_cases h1 : 1 < (obs.getD n []).length
          · rw [if_pos h1, getD_set_ne _ _ _ _ _ hne]
            exact ih2
          · rw [if_neg h1]
            exact ih2
      · have hjn2 : j = n := by omega
        subst hjn2
        rw [sampleLoop_succ, sampleStep]
        dsimp only
        obtain ⟨hg1, hg2⟩ := sampleLoop_getD_ge obs randn chisq j ms ss ws j (le_refl j)
        have hlen1 : (sampleLoop obs randn chisq j ms ss ws).1.length = ms.length :=
          (sampleLoop_lengths obs randn chisq j ms ss ws).1
        have hlen2 : (sampleLoop obs randn chisq j ms ss ws).2.1.length = ss.length :=
          (sampleLoop_lengths obs randn chisq j ms ss ws).2
        constructor
        · by_cases h : 0 < (obs.getD j []).length
          · rw [if_pos h, getD_set_self _ _ _ _ (by omega), hg2,
              sampleMeanVal, if_pos h]
          · rw [if_neg h, hg1, sampleMeanVal, if_neg h]
        · by_cases h1 : 1 < (obs.getD j []).length
          · have h0 : 0 < (obs.getD j []).length := by omega
            rw [if_pos h1, if_pos h0, getD_set_self _ _ _ _ (by omega),
              getD_set_self _ _ _ _ (by omega), hg2,
              sampleSigmaVal, if_pos h1, sampleMeanVal, if_pos h0]
          · rw [if_neg h1, hg2, sampleSigmaVal, if_neg h1]

theorem sampleLoop_warns (obs : List (List Fl)) (randn chisq : ℕ → ℝ) (N : ℕ)
    (ms ss : List Fl) (ws : List ℕ) :
    (sampleLoop obs randn chisq N ms ss ws).2.2
      = ws ++ (List.range N).filter (fun i => (obs.getD i []).length == 0) := by
  induction N with
  | zero => simp [sampleLoop_zero]
  | succ n ih =>
      rw [sampleLoop_succ, sampleStep]
      dsimp only
      by_cases h : (obs.getD n []).length = 0
      · have hb : ((obs.getD n []).length == 0) = true := by simpa using h
        rw [if_pos h, ih, List.range_succ, List.filter_append, List.filter_cons,
          if_pos hb, List.filter_nil, ← List.append_assoc]
      · have hb : ((obs.getD n []).length == 0) = false := by simpa using h
        rw [if_neg h, ih, List.range_succ, List.filter_append, List.filter_cons,
          if_neg (by rw [hb]; exact Bool.false_ne_true), List.filter_nil,
          List.append_nil]

theorem sample_of_int (m : GOM) (N : ℕ) (hN : m.n_states = PyVal.int N)
    (obs : List (List Fl)) (randn chisq : ℕ → ℝ) :
    sample m obs randn chisq
      = ({ m with means := (sampleLoop obs randn chisq N m.means m.sigmas []).1,
                  sigmas := (sampleLoop obs randn chisq N m.means m.sigmas []).2.1 },
         (sampleLoop obs randn chisq N m.means m.sigmas []).2.2, none) := by
  obtain ⟨ns, ms, ss, io⟩ := m
  have h : ns = PyVal.int N := hN
  subst h
  rfl

theorem fit_of_nonint (m : GOM) (h : ∀ N, m.n_states ≠ PyVal.int N)
    (o : List (List Fl)) (w : List (List (List Fl))) :
    fit m o w = (m, some PyErr.typeError) := by
  obtain ⟨ns, ms, ss, io⟩ := m
  cases ns with
  | int N => exact absurd rfl (h N)
  | arr a => rfl
  | pynone => rfl

theorem generateObservationTrajectory_getD (m : GOM) (st : List ℕ) (randn : ℕ → ℝ)
    (t : ℕ) (ht : t < st.length) :
    (generateObservationTrajectory m st randn).2.getD t Fl.nan
      = generateObservationFromState m (st.getD t 0) (randn t) := by
  rw [generateObservationTrajectory]
  dsimp only
  rw [getD_range_map _ _ _ _ ht]
  rfl

theorem except_bind_ok {e a b : Type} (x : a) (f : a → Except e b) :
    (Except.ok x : Except e a) >>= f = f x := rfl

theorem except_bind_error {e a b : Type} (err : e) (f : a → Except e b) :
    (Except.error err : Except e a) >>= f = Except.error err := rfl

theorem except_pure_eq {e a : Type} (x : a) : (pure x : Except e a) = Except.ok x := rfl

theorem mkGaussian_defaults (n : ℕ) (io : Bool) :
    mkGaussian (PyVal.int n) none none io
      = Except.ok ⟨PyVal.int n, List.replicate n (Fl.fin 0),
          List.replicate n (Fl.fin 0), io⟩ := rfl

theorem mkGaussian_vec_vec (n : ℕ) (hn1 : n ≠ 1) (ms ss : List Fl) (io : Bool)
    (hms : ms.length = n) (hss : ss.length = n) :
    mkGaussian (PyVal.int n) (some (NDArr.vec ms)) (some (NDArr.vec ss)) io
      = Except.ok ⟨PyVal.int n, ms, ss, io⟩ := by
  simp [mkGaussian, shapeEqTuple, NDArr.shape, NDArr.squeeze, NDArr.flat, hms, hss,
    hn1, except_bind_ok, except_bind_error, except_pure_eq]

theorem mkGaussian_vec_none (n : ℕ) (ms : List Fl) (io : Bool) (hms : ms.length = n) :
    mkGaussian (PyVal.int n) (some (NDArr.vec ms)) none io
      = Except.ok ⟨PyVal.int n, ms, List.replicate n (Fl.fin 0), io⟩ := by
  simp [mkGaussian, shapeEqTuple, NDArr.shape, NDArr.flat, hms,
    except_bind_ok, except_bind_error, except_pure_eq]

theorem mkGaussian_means_mismatch (n : ℕ) (ms : List Fl) (hms : ms.length ≠ n)
    (sigmas : Option NDArr) (io : Bool) :
    mkGaussian (PyVal.int n) (some (NDArr.vec ms)) sigmas io
      = Except.error PyErr.valueError := by
  cases sigmas with
  | none =>
      simp [mkGaussian, shapeEqTuple, NDArr.shape, hms,
        except_bind_ok, except_bind_error, except_pure_eq]
  | some a =>
      simp [mkGaussian, shapeEqTuple, NDArr.shape, hms,
        except_bind_ok, except_bind_error, except_pure_eq]

theorem mkGaussian_sigmas_mismatch (n : ℕ) (ms ss : List Fl) (io : Bool)
    (hms : ms.length = n) (hss : ss.length ≠ n) :
    mkGaussian (PyVal.int n) (some (NDArr.vec ms)) (some (NDArr.vec ss)) io
      = Except.error PyErr.valueError := by
  by_cases h1 : ss.length = 1
  · obtain ⟨x, rfl⟩ : ∃ x, ss = [x] := by
      cases ss with
      | nil => simp at h1
      | cons x t =>
          cases t with
          | nil => exact ⟨x, rfl⟩
          | cons y t2 => simp at h1
    have hn1 : n ≠ 1 := by
      intro h
      exact hss (by simpa using h.symm)
    simp [mkGaussian, shapeEqTuple, NDArr.shape, NDArr.squeeze, NDArr.flat, hms,
      except_bind_ok, except_bind_error, except_pure_eq]
  · simp [mkGaussian, shapeEqTuple, NDArr.shape, NDArr.squeeze, NDArr.flat, hms, hss, h1,
      except_bind_ok, except_bind_error, except_pure_eq]

theorem mkGaussian_sigmas_mat (n : ℕ) (hn : 2 ≤ n) (ss : List Fl) (io : Bool)
    (hss : ss.length = n) :
    mkGaussian (PyVal.int n) none (some (NDArr.mat (ss.map (fun x => [x])))) io
      = Except.ok ⟨PyVal.int n, List.replicate n (Fl.fin 0), ss, io⟩ := by
  obtain ⟨a, t, rfl⟩ : ∃ a t, ss = a :: t := by
    cases ss with
    | nil => simp at hss; omega
    | cons a t => exact ⟨a, t, rfl⟩
  rw [List.length_cons] at hss
  have hfalse : ¬((List.map (fun x => [x]) t).length + 1 = 1) := by
    rw [List.length_map]
    omega
  have hn1 : ¬n = 1 := by omega
  simp [mkGaussian, shapeEqTuple, NDArr.shape, NDArr.squeeze, NDArr.flat, hss, hfalse,
    hn1, Function.comp, List.getElem?_cons_zero, Option.getD_some, List.map_id',
    except_bind_ok, except_bind_error, except_pure_eq]
  have h2 : List.map ((fun r => r[0]?.getD Fl.nan) ∘ fun x => [x]) t
      = List.map (fun x => x) t := List.map_congr_left (fun x _ => rfl)
  simpa using h2

theorem mkGaussian_means_mat (n : ℕ) (xss : List (List Fl)) (sigmas : Option NDArr)
    (io : Bool) :
    mkGaussian (PyVal.int n) (some (NDArr.mat xss)) sigmas io
      = Except.error PyErr.valueError := by
  cases sigmas with
  | none =>
      simp [mkGaussian, shapeEqTuple, NDArr.shape,
        except_bind_ok, except_bind_error, except_pure_eq]
  | some a =>
      simp [mkGaussian, shapeEqTuple, NDArr.shape,
        except_bind_ok, except_bind_error, except_pure_eq]

-- ======================  Claim theorems  ======================

/-- Claim C1 (code-bug evidence): on a freshly constructed 2-state Gaussian
model with means [5, 7] and sigmas [2, 3], `sub_output_model([0])` raises a
ValueError instead of returning the one-state sub-model with mean 5 and
sigma 2: the source passes the fancy-indexed means as the constructor's
positional `n_states` argument and the fancy-indexed sigmas as `means`,
omitting `sigmas` entirely. -/
theorem sub_output_model_raises_instead_of_subsetting :
    (mkGaussian (PyVal.int 2) (some (NDArr.vec [Fl.fin 5, Fl.fin 7]))
        (some (NDArr.vec [Fl.fin 2, Fl.fin 3])) true)
      >>= (fun p => subOutputModel p [0])
      = Except.error PyErr.valueError := by
  rw [mkGaussian_vec_vec 2 (by omega) [Fl.fin 5, Fl.fin 7] [Fl.fin 2, Fl.fin 3]
      true rfl rfl, except_bind_ok]
  show mkGaussian (PyVal.arr (NDArr.vec [Fl.fin 5])) (some (NDArr.vec [Fl.fin 2]))
      none true = Except.error PyErr.valueError
  simp only [mkGaussian, shapeEqTuple, NDArr.shape, natEqFl]
  rw [show (decide ((([Fl.fin 2].length : ℕ) : ℝ) = 5)) = false from by norm_num]
  rfl

/-- Claim C5 (code-bug evidence): constructing a one-state model with the
documented shape-(1,) means and sigmas arrays raises a ValueError — the
sigmas array is squeezed to a 0-d scalar whose shape () fails the
comparison with (1,) — although the same means-only construction succeeds;
so construction with valid length-1 means and sigmas does not succeed as
claimed. -/
theorem ctor_one_state_valid_sigma_rejected :
    mkGaussian (PyVal.int 1) (some (NDArr.vec [Fl.fin 0]))
        (some (NDArr.vec [Fl.fin 2])) true = Except.error PyErr.valueError
    ∧ mkGaussian (PyVal.int 1) (some (NDArr.vec [Fl.fin 0])) none true
        = Except.ok ⟨PyVal.int 1, [Fl.fin 0], [Fl.fin 0], true⟩ := by
  constructor
  · rfl
  · rfl

/-- Claim C10 counterexample: for `n_states = 1`, a sigmas array of shape
(1, 1) is NOT accepted: squeeze collapses it to a 0-d scalar whose shape ()
fails the comparison with (1,), so construction raises a ValueError,
refuting the "for every n_states" quantification. -/
theorem ctor_sigma_col_vector_rejected_one_state :
    mkGaussian (PyVal.int 1) none (some (NDArr.mat [[Fl.fin 2]])) true
      = Except.error PyErr.valueError := rfl

/-- Claim C10 (amended): for every `n_states ≥ 2`, a sigmas argument of
shape (n_states, 1) is accepted — squeeze flattens it to a length-n_states
vector that is stored — while a means argument of shape (n_states, 1) is
rejected with a ValueError (means are not squeezed); for `n_states = 1`
both are rejected (see the counterexample). -/
theorem ctor_squeeze_asymmetry (n : ℕ) (hn : 2 ≤ n) (ms ss : List Fl) (io : Bool)
    (hms : ms.length = n) (hss : ss.length = n) :
    mkGaussian (PyVal.int n) none (some (NDArr.mat (ss.map (fun x => [x])))) io
        = Except.ok ⟨PyVal.int n, List.replicate n (Fl.fin 0), ss, io⟩
    ∧ mkGaussian (PyVal.int n) (some (NDArr.mat (ms.map (fun x => [x])))) none io
        = Except.error PyErr.valueError :=
  ⟨mkGaussian_sigmas_mat n hn ss io hss, mkGaussian_means_mat n _ none io⟩

/-- Witness for the amended C10 theorem at `n_states = 2`,
sigmas = [[1], [2]], means = [[0], [0]]. -/
theorem ctor_squeeze_asymmetry_witness :
    (2 ≤ 2 ∧ ([Fl.fin 1, Fl.fin 2] : List Fl).length = 2
      ∧ ([Fl.fin 0, Fl.fin 0] : List Fl).length = 2)
    ∧ (mkGaussian (PyVal.int 2) none
        (some (NDArr.mat ([Fl.fin 1, Fl.fin 2].map (fun x => [x])))) true
          = Except.ok ⟨PyVal.int 2, List.replicate 2 (Fl.fin 0), [Fl.fin 1, Fl.fin 2], true⟩
      ∧ mkGaussian (PyVal.int 2)
          (some (NDArr.mat ([Fl.fin 0, Fl.fin 0].map (fun x => [x])))) none true
          = Except.error PyErr.valueError) :=
  ⟨⟨le_refl 2, rfl, rfl⟩,
    ctor_squeeze_asymmetry 2 (le_refl 2) [Fl.fin 0, Fl.fin 0] [Fl.fin 1, Fl.fin 2]
      true rfl rfl⟩

/-- Claim C2 counterexample: for a one-state model fitted with one
observation [1.0] carrying zero weight, the state's weight sum is zero, the
resulting sigma is NaN (non-finite), and `fit` completes WITHOUT raising,
silently storing the NaN: the IEEE comparison `NaN < eps` is false, so the
claimed error is not raised. -/
theorem fit_stores_nan_sigma_without_error :
    (fit ⟨PyVal.int 1, [Fl.fin 0], [Fl.fin 0], true⟩ [[Fl.fin 1]] [[[Fl.fin 0]]]).2 = none
    ∧ (fit ⟨PyVal.int 1, [Fl.fin 0], [Fl.fin 0], true⟩
        [[Fl.fin 1]] [[[Fl.fin 0]]]).1.sigmas = [Fl.nan] := by
  have hs : fitSigmas 1 [[Fl.fin 1]] [[[Fl.fin 0]]] = [Fl.nan] := by
    norm_num [fitSigmas, fitMeans, fitLoop1, fitLoop2, fitLoop_succ, fitLoop_zero,
      accumAt_succ, accumAt_zero, sumAxis0, col, dotFl, FlSum, Fl.add_fin, Fl.mul_fin,
      Fl.sub_fin, Fl.div_zero_zero, Fl.sub_nan_right, Fl.mul_nan_left, Fl.mul_nan_right,
      Fl.add_nan_right, Fl.add_nan_left, Fl.div_nan_left, Fl.sqrt_nan, List.range_succ]
  constructor
  · rw [fit_of_int _ 1 rfl]
    dsimp only
    rw [if_neg]
    rintro ⟨s, hs2, hlt⟩
    rw [hs] at hs2
    rw [List.mem_singleton.mp hs2] at hlt
    exact Fl.not_lt_nan_left _ hlt
  · rw [fit_of_int _ 1 rfl]
    exact hs

/-- Claim C2 (amended): `fit` raises the fitting error iff some resulting
sigma is a finite value strictly below machine epsilon (2^-52 for float64):
if every resulting sigma is finite and at least machine epsilon the call
completes without error, while a non-finite (NaN) sigma — e.g. produced by
a zero per-state weight sum — does not trigger the error and is silently
stored. -/
theorem fit_error_iff_finite_sigma_below_eps (m : GOM) (N : ℕ)
    (hN : m.n_states = PyVal.int N) (o : List (List Fl)) (w : List (List (List Fl))) :
    ((∀ s ∈ (fit m o w).1.sigmas, ∃ x : ℝ, s = Fl.fin x ∧ flEps ≤ x) →
      (fit m o w).2 = none)
    ∧ ((∃ s ∈ (fit m o w).1.sigmas, ∃ x : ℝ, s = Fl.fin x ∧ x < flEps) →
      (fit m o w).2 = some PyErr.runtimeError) := by
  rw [fit_of_int m N hN]
  dsimp only
  constructor
  · intro h
    rw [if_neg]
    rintro ⟨s, hs, hlt⟩
    obtain ⟨x, rfl, hx⟩ := h s hs
    exact absurd ((Fl.lt_fin_iff x flEps).mp hlt) (not_lt.mpr hx)
  · rintro ⟨s, hs, x, rfl, hx⟩
    rw [if_pos ⟨Fl.fin x, hs, (Fl.lt_fin_iff x flEps).mpr hx⟩]

/-- Witness for the amended C2 theorem: a one-state fit with unit weights on
observations [0, 2] gives sigma = sqrt(1) = 1 ≥ eps, and the call completes
without error. -/
theorem fit_error_iff_finite_sigma_below_eps_witness :
    (∀ s ∈ (fit ⟨PyVal.int 1, [Fl.fin 0], [Fl.fin 0], true⟩
        [[Fl.fin 0, Fl.fin 2]] [[[Fl.fin 1], [Fl.fin 1]]]).1.sigmas,
      ∃ x : ℝ, s = Fl.fin x ∧ flEps ≤ x)
    ∧ (fit ⟨PyVal.int 1, [Fl.fin 0], [Fl.fin 0], true⟩
        [[Fl.fin 0, Fl.fin 2]] [[[Fl.fin 1], [Fl.fin 1]]]).2 = none := by
  have hs : (fit ⟨PyVal.int 1, [Fl.fin 0], [Fl.fin 0], true⟩
      [[Fl.fin 0, Fl.fin 2]] [[[Fl.fin 1], [Fl.fin 1]]]).1.sigmas = [Fl.fin 1] := by
    rw [fit_of_int _ 1 rfl]
    norm_num [fitSigmas, fitMeans, fitLoop1, fitLoop2, fitLoop_succ, fitLoop_zero,
      accumAt_succ, accumAt_zero, sumAxis0, col, dotFl, FlSum, Fl.add_fin, Fl.mul_fin,
      Fl.sub_fin, Fl.div_fin_of_ne, Fl.sqrt_fin_of_nonneg, Real.sqrt_one,
      List.range_succ]
  have hall : ∀ s ∈ (fit ⟨PyVal.int 1, [Fl.fin 0], [Fl.fin 0], true⟩
      [[Fl.fin 0, Fl.fin 2]] [[[Fl.fin 1], [Fl.fin 1]]]).1.sigmas,
      ∃ x : ℝ, s = Fl.fin x ∧ flEps ≤ x := by
    rw [hs]
    intro s hmem
    rw [List.mem_singleton.mp hmem]
    exact ⟨1, rfl, by rw [flEps]; norm_num⟩
  exact ⟨hall,
    (fit_error_iff_finite_sigma_below_eps ⟨PyVal.int 1, [Fl.fin 0], [Fl.fin 0], true⟩
      1 rfl [[Fl.fin 0, Fl.fin 2]] [[[Fl.fin 1], [Fl.fin 1]]]).1 hall⟩

/-- Claim C3 counterexample: fitting a one-state model (means [5], sigmas
[3]) on the single observation [0] with weight 1 collapses sigma to 0 < eps,
so `fit` raises the RuntimeError — yet the model's means have been
overwritten from [5] to the newly fitted [0]: the state is NOT unchanged on
error. -/
theorem fit_raises_yet_mutates :
    (fit ⟨PyVal.int 1, [Fl.fin 5], [Fl.fin 3], true⟩ [[Fl.fin 0]] [[[Fl.fin 1]]]).2
        = some PyErr.runtimeError
    ∧ (fit ⟨PyVal.int 1, [Fl.fin 5], [Fl.fin 3], true⟩ [[Fl.fin 0]] [[[Fl.fin 1]]]).1.means
        = [Fl.fin 0]
    ∧ [Fl.fin 0] ≠ [Fl.fin 5] := by
  have hm : fitMeans 1 [[Fl.fin 0]] [[[Fl.fin 1]]] = [Fl.fin 0] := by
    norm_num [fitMeans, fitLoop1, fitLoop_succ, fitLoop_zero, accumAt_succ, accumAt_zero,
      sumAxis0, col, dotFl, FlSum, Fl.add_fin, Fl.mul_fin, List.range_succ,
      Fl.div_fin_of_ne]
  have hsg : fitSigmas 1 [[Fl.fin 0]] [[[Fl.fin 1]]] = [Fl.fin 0] := by
    norm_num [fitSigmas, hm, fitLoop2, fitLoop_succ, fitLoop_zero, accumAt_succ,
      accumAt_zero, sumAxis0, col, dotFl, FlSum, Fl.add_fin, Fl.mul_fin, Fl.sub_fin,
      List.range_succ, Fl.div_fin_of_ne, Fl.sqrt_fin_of_nonneg, Real.sqrt_zero]
  refine ⟨?_, ?_, ?_⟩
  · rw [fit_of_int _ 1 rfl]
    dsimp only
    rw [if_pos]
    exact ⟨Fl.fin 0, by rw [hsg]; exact List.mem_singleton.mpr rfl,
      by rw [Fl.lt_fin_iff, flEps]; norm_num⟩
  · rw [fit_of_int _ 1 rfl]
    exact hm
  · intro h
    have h2 : Fl.fin (0:ℝ) = Fl.fin 5 := by
      injection h
    have h3 : (0:ℝ) = 5 := by injection h2
    norm_num at h3

/-- Claim C3 (amended): when `fit` raises the fitting error, the model has
already been mutated: its means and sigmas are the freshly computed arrays
(not the pre-call parameters), and the stored sigmas contain the offending
value that compares below machine epsilon. -/
theorem fit_error_implies_mutated_state (m : GOM) (N : ℕ)
    (hN : m.n_states = PyVal.int N) (o : List (List Fl)) (w : List (List (List Fl))) :
    (fit m o w).2 = some PyErr.runtimeError →
      (fit m o w).1.means = fitMeans N o w
      ∧ (fit m o w).1.sigmas = fitSigmas N o w
      ∧ ∃ s ∈ (fit m o w).1.sigmas, Fl.lt s (Fl.fin flEps) := by
  rw [fit_of_int m N hN]
  dsimp only
  intro h
  refine ⟨rfl, rfl, ?_⟩
  by_cases hc : ∃ s ∈ fitSigmas N o w, Fl.lt s (Fl.fin flEps)
  · exact hc
  · rw [if_neg hc] at h
    exact absurd h (by simp)

/-- Witness for the amended C3 theorem at the concrete raising input of the
counterexample. -/
theorem fit_error_implies_mutated_state_witness :
    (fit ⟨PyVal.int 1, [Fl.fin 5], [Fl.fin 3], true⟩ [[Fl.fin 0]] [[[Fl.fin 1]]]).2
        = some PyErr.runtimeError
    ∧ ((fit ⟨PyVal.int 1, [Fl.fin 5], [Fl.fin 3], true⟩
          [[Fl.fin 0]] [[[Fl.fin 1]]]).1.means = fitMeans 1 [[Fl.fin 0]] [[[Fl.fin 1]]]
        ∧ (fit ⟨PyVal.int 1, [Fl.fin 5], [Fl.fin 3], true⟩
            [[Fl.fin 0]] [[[Fl.fin 1]]]).1.sigmas = fitSigmas 1 [[Fl.fin 0]] [[[Fl.fin 1]]]
        ∧ ∃ s ∈ (fit ⟨PyVal.int 1, [Fl.fin 5], [Fl.fin 3], true⟩
            [[Fl.fin 0]] [[[Fl.fin 1]]]).1.sigmas, Fl.lt s (Fl.fin flEps)) := by
  have herr : (fit ⟨PyVal.int 1, [Fl.fin 5], [Fl.fin 3], true⟩
      [[Fl.fin 0]] [[[Fl.fin 1]]]).2 = some PyErr.runtimeError := by
    have hsg : fitSigmas 1 [[Fl.fin 0]] [[[Fl.fin 1]]] = [Fl.fin 0] := by
      norm_num [fitSigmas, fitMeans, fitLoop1, fitLoop2, fitLoop_succ, fitLoop_zero,
        accumAt_succ, accumAt_zero, sumAxis0, col, dotFl, FlSum, Fl.add_fin, Fl.mul_fin,
        Fl.sub_fin, List.range_succ, Fl.div_fin_of_ne, Fl.sqrt_fin_of_nonneg,
        Real.sqrt_zero]
    rw [fit_of_int _ 1 rfl]
    dsimp only
    rw [if_pos]
    exact ⟨Fl.fin 0, by rw [hsg]; exact List.mem_singleton.mpr rfl,
      by rw [Fl.lt_fin_iff, flEps]; norm_num⟩
  exact ⟨herr,
    fit_error_implies_mutated_state ⟨PyVal.int 1, [Fl.fin 5], [Fl.fin 3], true⟩
      1 rfl [[Fl.fin 0]] [[[Fl.fin 1]]] herr⟩

/-- Claim C4: for K observation trajectories and matching (non-negative, per
the data contract) weight matrices with positive per-state weight sums, fit
sets `means[i] = (Σ_k Σ_t weights[k][t,i] · observations[k][t]) / w_sum[i]`
and then, using that just-updated mean, `sigmas[i] =
sqrt((Σ_k Σ_t weights[k][t,i] · (observations[k][t] − means[i])²) / w_sum[i])`. -/
theorem fit_computes_weighted_mle (m : GOM) (N : ℕ) (hN : m.n_states = PyVal.int N)
    (oR : List (List ℝ)) (wR : List (List (List ℝ)))
    (hKlen : wR.length = oR.length)
    (hTlen : ∀ k < oR.length, (wR.getD k []).length = (oR.getD k []).length)
    (hrowN : ∀ k < oR.length, ∀ r ∈ wR.getD k [], r.length = N)
    (hwnn : ∀ k < oR.length, ∀ r ∈ wR.getD k [], ∀ c ∈ r, (0:ℝ) ≤ c)
    (hwpos : ∀ i < N, 0 < specWSum oR.length wR i)
    (i : ℕ) (hi : i < N) :
    (fit m (finM oR) (wR.map finM)).1.means.getD i Fl.nan
        = Fl.fin (specMean oR.length oR wR i)
    ∧ (fit m (finM oR) (wR.map finM)).1.sigmas.getD i Fl.nan
        = Fl.fin (specSigma oR.length oR wR i) := by
  have hrow : ∀ k < oR.length, ∀ r ∈ wR.getD k [], i < r.length := by
    intro k hk r hr
    rw [hrowN k hk r hr]
    exact hi
  rw [fit_of_int m N hN]
  exact ⟨fitMeans_getD_fin N oR wR i hi hrow (ne_of_gt (hwpos i hi)),
    fitSigmas_getD_fin N oR wR i hi hrow (hwpos i hi) hwnn⟩

/-- Witness for the C4 theorem: one state, one trajectory [0, 2] with unit
weights; the fitted mean is 1 and the fitted sigma is sqrt(1). -/
theorem fit_computes_weighted_mle_witness :
    ((([[[(1:ℝ)], [1]]] : List (List (List ℝ))).length = ([[(0:ℝ), 2]] : List (List ℝ)).length)
      ∧ (∀ k < ([[(0:ℝ), 2]] : List (List ℝ)).length,
          (([[[(1:ℝ)], [1]]] : List (List (List ℝ))).getD k []).length
            = (([[(0:ℝ), 2]] : List (List ℝ)).getD k []).length)
      ∧ (∀ k < ([[(0:ℝ), 2]] : List (List ℝ)).length,
          ∀ r ∈ ([[[(1:ℝ)], [1]]] : List (List (List ℝ))).getD k [], r.length = 1)
      ∧ (∀ k < ([[(0:ℝ), 2]] : List (List ℝ)).length,
          ∀ r ∈ ([[[(1:ℝ)], [1]]] : List (List (List ℝ))).getD k [],
            ∀ c ∈ r, (0:ℝ) ≤ c)
      ∧ (∀ i < 1, 0 < specWSum ([[(0:ℝ), 2]] : List (List ℝ)).length [[[(1:ℝ)], [1]]] i))
    ∧ ((fit ⟨PyVal.int 1, [Fl.fin 0], [Fl.fin 0], true⟩
          (finM [[(0:ℝ), 2]]) ([[[(1:ℝ)], [1]]].map finM)).1.means.getD 0 Fl.nan
        = Fl.fin (specMean ([[(0:ℝ), 2]] : List (List ℝ)).length [[(0:ℝ), 2]] [[[(1:ℝ)], [1]]] 0)
      ∧ (fit ⟨PyVal.int 1, [Fl.fin 0], [Fl.fin 0], true⟩
          (finM [[(0:ℝ), 2]]) ([[[(1:ℝ)], [1]]].map finM)).1.sigmas.getD 0 Fl.nan
        = Fl.fin (specSigma ([[(0:ℝ), 2]] : List (List ℝ)).length [[(0:ℝ), 2]] [[[(1:ℝ)], [1]]] 0)) := by
  have hTlen : ∀ k < ([[(0:ℝ), 2]] : List (List ℝ)).length,
      (([[[(1:ℝ)], [1]]] : List (List (List ℝ))).getD k []).length
        = (([[(0:ℝ), 2]] : List (List ℝ)).getD k []).length := by
    intro k hk
    rw [List.length_singleton] at hk
    have hk0 : k = 0 := by omega
    subst hk0
    rfl
  have hrowN : ∀ k < ([[(0:ℝ), 2]] : List (List ℝ)).length,
      ∀ r ∈ ([[[(1:ℝ)], [1]]] : List (List (List ℝ))).getD k [], r.length = 1 := by
    intro k hk r hr
    rw [List.length_singleton] at hk
    have hk0 : k = 0 := by omega
    subst hk0
    fin_cases hr <;> rfl
  have hwnn : ∀ k < ([[(0:ℝ), 2]] : List (List ℝ)).length,
      ∀ r ∈ ([[[(1:ℝ)], [1]]] : List (List (List ℝ))).getD k [], ∀ c ∈ r, (0:ℝ) ≤ c := by
    intro k hk r hr c hc
    rw [List.length_singleton] at hk
    have hk0 : k = 0 := by omega
    subst hk0
    fin_cases hr <;> fin_cases hc <;> norm_num
  have hwpos : ∀ i < 1, 0 < specWSum ([[(0:ℝ), 2]] : List (List ℝ)).length
      [[[(1:ℝ)], [1]]] i := by
    intro i hi
    have hi0 : i = 0 := by omega
    subst hi0
    norm_num [specWSum, List.range_succ]
  exact ⟨⟨rfl, hTlen, hrowN, hwnn, hwpos⟩,
    fit_computes_weighted_mle ⟨PyVal.int 1, [Fl.fin 0], [Fl.fin 0], true⟩ 1 rfl
      [[(0:ℝ), 2]] [[[(1:ℝ)], [1]]] rfl hTlen hrowN hwnn hwpos 0 (by omega)⟩

/-- Claim C6 (amended): for a state with n ≥ 2 observations, `sample` first
draws the new mean centred at the empirical mean with scale
`old sigma / sqrt(n)`, THEN re-draws sigma from the NEW mean as
`sqrt(mean((obs − new_mean)²)) / sqrt(chisq / n)`; the resulting sigma is
strictly positive whenever the chi-squared draw is positive and some
observation differs from the new mean — it is zero when all observations
equal the new mean (e.g. old sigma 0 and identical observations). -/
theorem sample_two_obs_mean_then_sigma (m : GOM) (N : ℕ)
    (hN : m.n_states = PyVal.int N) (obs : List (List Fl)) (randn chisq : ℕ → ℝ)
    (hm : m.means.length = N) (hs : m.sigmas.length = N)
    (i : ℕ) (hi : i < N) (os : List ℝ)
    (hobs : obs.getD i [] = os.map Fl.fin) (hn2 : 2 ≤ os.length)
    (sg : ℝ) (hsg : m.sigmas.getD i Fl.nan = Fl.fin sg) (hx : 0 < chisq i) :
    (sample m obs randn chisq).1.means.getD i Fl.nan
        = Fl.fin (randn i * sg / Real.sqrt (os.length : ℝ)
            + os.sum / (os.length : ℝ))
    ∧ (sample m obs randn chisq).1.sigmas.getD i Fl.nan
        = Fl.fin (Real.sqrt ((os.map (fun v => (v - (randn i * sg / Real.sqrt (os.length : ℝ)
            + os.sum / (os.length : ℝ))) ^ 2)).sum / (os.length : ℝ))
          / Real.sqrt (chisq i / (os.length : ℝ)))
    ∧ ((∃ v ∈ os, v ≠ randn i * sg / Real.sqrt (os.length : ℝ)
          + os.sum / (os.length : ℝ)) →
        Fl.lt (Fl.fin 0) ((sample m obs randn chisq).1.sigmas.getD i Fl.nan)) := by
  have hlen : (obs.getD i []).length = os.length := by
    rw [hobs, List.length_map]
  have hlpos : (0:ℝ) < (os.length : ℝ) := by
    have : 0 < os.length := by omega
    exact_mod_cast this
  have hlne : ((os.length : ℝ)) ≠ 0 := ne_of_gt hlpos
  have hsqlpos : 0 < Real.sqrt (os.length : ℝ) := Real.sqrt_pos.mpr hlpos
  obtain ⟨hmean, hsigma⟩ := sampleLoop_getD_lt obs randn chisq N m.means m.sigmas []
    (by omega) (by omega) i hi
  have hmu : sampleMeanVal obs randn m.means m.sigmas i
      = Fl.fin (randn i * sg / Real.sqrt (os.length : ℝ) + os.sum / (os.length : ℝ)) := by
    rw [sampleMeanVal, if_pos (by omega), hsg, hlen, Fl.mul_fin, hobs, meanFl,
      FlSum_map_fin, List.length_map, Fl.div_fin_of_ne _ _ (ne_of_gt hsqlpos),
      Fl.div_fin_of_ne _ _ hlne, Fl.add_fin]
  have hm2nn : 0 ≤ (os.map (fun v => (v - (randn i * sg / Real.sqrt (os.length : ℝ)
      + os.sum / (os.length : ℝ))) ^ 2)).sum := by
    refine List.sum_nonneg (fun y hy => ?_)
    obtain ⟨v, _, rfl⟩ := List.mem_map.mp hy
    exact sq_nonneg _
  have hxlpos : 0 < chisq i / (os.length : ℝ) := div_pos hx hlpos
  have hsv : sampleSigmaVal obs randn chisq m.means m.sigmas i
      = Fl.fin (Real.sqrt ((os.map (fun v => (v - (randn i * sg / Real.sqrt (os.length : ℝ)
          + os.sum / (os.length : ℝ))) ^ 2)).sum / (os.length : ℝ))
        / Real.sqrt (chisq i / (os.length : ℝ))) := by
    rw [sampleSigmaVal, if_pos (by omega), hobs, hmu]
    have hmap : (os.map Fl.fin).map (fun v =>
        Fl.mul (Fl.sub v (Fl.fin (randn i * sg / Real.sqrt (os.length : ℝ)
            + os.sum / (os.length : ℝ))))
          (Fl.sub v (Fl.fin (randn i * sg / Real.sqrt (os.length : ℝ)
            + os.sum / (os.length : ℝ)))))
        = (os.map (fun v => (v - (randn i * sg / Real.sqrt (os.length : ℝ)
            + os.sum / (os.length : ℝ))) ^ 2)).map Fl.fin := by
      rw [List.map_map, List.map_map]
      refine List.map_congr_left (fun v _ => ?_)
      simp only [Function.comp]
      rw [Fl.sub_fin, Fl.mul_fin, ← pow_two]
    rw [hmap, meanFl, FlSum_map_fin]
    simp only [List.length_map]
    rw [Fl.div_fin_of_ne _ _ hlne,
      Fl.sqrt_fin_of_nonneg _ (div_nonneg hm2nn (le_of_lt hlpos)),
      Fl.div_fin_of_ne _ _ hlne, Fl.sqrt_fin_of_nonneg _ (le_of_lt hxlpos),
      Fl.div_fin_of_ne _ _ (ne_of_gt (Real.sqrt_pos.mpr hxlpos))]
  rw [sample_of_int m N hN]
  refine ⟨?_, ?_, ?_⟩
  · show (sampleLoop obs randn chisq N m.means m.sigmas []).1.getD i Fl.nan = _
    rw [hmean, hmu]
  · show (sampleLoop obs randn chisq N m.means m.sigmas []).2.1.getD i Fl.nan = _
    rw [hsigma, hsv]
  · rintro ⟨v, hv, hne⟩
    show Fl.lt (Fl.fin 0)
      ((sampleLoop obs randn chisq N m.means m.sigmas []).2.1.getD i Fl.nan)
    rw [hsigma, hsv, Fl.lt_fin_iff]
    refine div_pos (Real.sqrt_pos.mpr (div_pos ?_ hlpos)) (Real.sqrt_pos.mpr hxlpos)
    have hmem : (v - (randn i * sg / Real.sqrt (os.length : ℝ)
        + os.sum / (os.length : ℝ))) ^ 2
        ∈ os.map (fun v => (v - (randn i * sg / Real.sqrt (os.length : ℝ)
            + os.sum / (os.length : ℝ))) ^ 2) :=
      List.mem_map.mpr ⟨v, hv, rfl⟩
    have hvpos : 0 < (v - (randn i * sg / Real.sqrt (os.length : ℝ)
        + os.sum / (os.length : ℝ))) ^ 2 :=
      pow_two_pos_of_ne_zero (sub_ne_zero.mpr hne)
    have hle := List.single_le_sum (fun y hy => by
        obtain ⟨u, _, rfl⟩ := List.mem_map.mp hy
        exact sq_nonneg _) _ hmem
    linarith

/-- Claim C7: for a state with exactly one observation `c`, `sample` updates
the mean to the draw `randn * sigma[state] / sqrt(1) + c` (normal centred at
the empirical mean of the single observation, scale `sigma/sqrt(1)`) and
leaves that state's sigma unchanged. -/
theorem sample_single_obs_updates_mean_only (m : GOM) (N : ℕ)
    (hN : m.n_states = PyVal.int N) (obs : List (List Fl)) (randn chisq : ℕ → ℝ)
    (hm : m.means.length = N) (hs : m.sigmas.length = N)
    (i : ℕ) (hi : i < N) (c : ℝ) (hobs : obs.getD i [] = [Fl.fin c])
    (sg : ℝ) (hsg : m.sigmas.getD i Fl.nan = Fl.fin sg) :
    (sample m obs randn chisq).1.means.getD i Fl.nan
        = Fl.fin (randn i * sg / Real.sqrt 1 + c)
    ∧ (sample m obs randn chisq).1.sigmas.getD i Fl.nan
        = m.sigmas.getD i Fl.nan := by
  obtain ⟨hmean, hsigma⟩ := sampleLoop_getD_lt obs randn chisq N m.means m.sigmas []
    (by omega) (by omega) i hi
  rw [sample_of_int m N hN]
  constructor
  · show (sampleLoop obs randn chisq N m.means m.sigmas []).1.getD i Fl.nan = _
    rw [hmean, sampleMeanVal, hobs, if_pos (by simp), hsg, Fl.mul_fin, meanFl]
    norm_num [FlSum, Fl.add_fin, Fl.div_fin_of_ne, Real.sqrt_one]
  · show (sampleLoop obs randn chisq N m.means m.sigmas []).2.1.getD i Fl.nan = _
    rw [hsigma, sampleSigmaVal, hobs, if_neg (by simp)]

/-- Claim C8: for a state with zero observations, `sample` records a warning
for that state, leaves its mean and sigma unchanged, completes normally
without raising, and still updates every other non-empty state's mean by the
usual draw. -/
theorem sample_empty_state_warns_and_skips (m : GOM) (N : ℕ)
    (hN : m.n_states = PyVal.int N) (obs : List (List Fl)) (randn chisq : ℕ → ℝ)
    (hm : m.means.length = N) (hs : m.sigmas.length = N)
    (i : ℕ) (hi : i < N) (hobs : obs.getD i [] = []) :
    i ∈ (sample m obs randn chisq).2.1
    ∧ (sample m obs randn chisq).1.means.getD i Fl.nan = m.means.getD i Fl.nan
    ∧ (sample m obs randn chisq).1.sigmas.getD i Fl.nan = m.sigmas.getD i Fl.nan
    ∧ (sample m obs randn chisq).2.2 = none
    ∧ (∀ j, j < N → j ≠ i → 0 < (obs.getD j []).length →
        (sample m obs randn chisq).1.means.getD j Fl.nan
          = Fl.add (Fl.div (Fl.mul (Fl.fin (randn j)) (m.sigmas.getD j Fl.nan))
              (Fl.fin (Real.sqrt ((obs.getD j []).length : ℝ))))
            (meanFl (obs.getD j []))) := by
  obtain ⟨hmean, hsigma⟩ := sampleLoop_getD_lt obs randn chisq N m.means m.sigmas []
    (by omega) (by omega) i hi
  rw [sample_of_int m N hN]
  refine ⟨?_, ?_, ?_, rfl, ?_⟩
  · show i ∈ (sampleLoop obs randn chisq N m.means m.sigmas []).2.2
    rw [sampleLoop_warns, List.nil_append]
    refine List.mem_filter.mpr ⟨List.mem_range.mpr hi, ?_⟩
    rw [hobs]
    rfl
  · show (sampleLoop obs randn chisq N m.means m.sigmas []).1.getD i Fl.nan = _
    rw [hmean, sampleMeanVal, hobs, if_neg (by simp)]
  · show (sampleLoop obs randn chisq N m.means m.sigmas []).2.1.getD i Fl.nan = _
    rw [hsigma, sampleSigmaVal, hobs, if_neg (by simp)]
  · intro j hj hne hpos
    obtain ⟨hmj, _⟩ := sampleLoop_getD_lt obs randn chisq N m.means m.sigmas []
      (by omega) (by omega) j hj
    show (sampleLoop obs randn chisq N m.means m.sigmas []).1.getD j Fl.nan = _
    rw [hmj, sampleMeanVal, if_pos hpos]

/-- Claim C9: `generate_observation_trajectory(s_t)` leaves the model state
untouched, returns exactly `len(s_t)` observations, and its entry at time t
is the single-state draw `sigmas[s_t[t]] * Z_t + means[s_t[t]]` — the same
formula as `generate_observation_from_state`. -/
theorem generate_trajectory_matches_single_draws (m : GOM) (st : List ℕ)
    (randn : ℕ → ℝ) :
    (generateObservationTrajectory m st randn).1 = m
    ∧ (generateObservationTrajectory m st randn).2.length = st.length
    ∧ ∀ t, t < st.length →
        ((generateObservationTrajectory m st randn).2.getD t Fl.nan
            = generateObservationFromState m (st.getD t 0) (randn t)
          ∧ ∀ sg mu : ℝ, m.sigmas.getD (st.getD t 0) Fl.nan = Fl.fin sg →
              m.means.getD (st.getD t 0) Fl.nan = Fl.fin mu →
              (generateObservationTrajectory m st randn).2.getD t Fl.nan
                = Fl.fin (sg * randn t + mu)) := by
  refine ⟨rfl, ?_, ?_⟩
  · rw [generateObservationTrajectory]
    dsimp only
    rw [List.length_map, List.length_range]
  · intro t ht
    refine ⟨generateObservationTrajectory_getD m st randn t ht, ?_⟩
    intro sg mu hsg hmu
    rw [generateObservationTrajectory_getD m st randn t ht,
      generateObservationFromState, hsg, hmu, Fl.mul_fin, Fl.add_fin]

theorem except_map_ok {e a b : Type} (f : a → b) (x : a) :
    Except.map f (Except.ok x : Except e a) = Except.ok (f x) := rfl

/-- Claim C6 counterexample: on the default-constructed one-state model
(sigma initialised to 0) with the two identical observations [1, 1] and
draws Z = 1, chisq = 1, the re-sampled sigma is exactly 0 — not strictly
positive, refuting "sigma remains strictly positive in every draw". -/
theorem sample_sigma_zero_on_degenerate_draw :
    Except.map (fun g => (sample g [[Fl.fin 1, Fl.fin 1]]
        (fun _ => 1) (fun _ => 1)).1.sigmas)
      (mkGaussian (PyVal.int 1) none none true) = Except.ok [Fl.fin 0] := by
  rw [mkGaussian_defaults, except_map_ok]
  have hev : (sample ⟨PyVal.int 1, List.replicate 1 (Fl.fin 0),
      List.replicate 1 (Fl.fin 0), true⟩ [[Fl.fin 1, Fl.fin 1]]
      (fun _ => 1) (fun _ => 1)).1.sigmas = [Fl.fin 0] := by
    rw [sample_of_int _ 1 rfl]
    have h2 : Real.sqrt ((2:ℕ):ℝ) ≠ 0 := by
      refine ne_of_gt (Real.sqrt_pos.mpr ?_)
      norm_num
    have h12 : Real.sqrt ((1:ℝ)/2) ≠ 0 := by
      refine ne_of_gt (Real.sqrt_pos.mpr ?_)
      norm_num
    norm_num [sampleLoop_succ, sampleLoop_zero, sampleStep, meanFl, FlSum,
      Fl.add_fin, Fl.mul_fin, Fl.sub_fin, Fl.div_fin_of_ne, h2, h12,
      Fl.sqrt_fin_of_nonneg, Real.sqrt_zero, List.set, List.replicate]
  rw [hev]

/-- Witness for the amended C6 theorem: one state with old sigma 2,
observations [0, 4], draws Z = 1, chisq = 1; the hypotheses hold and the
re-sampled sigma is strictly positive. -/
theorem sample_two_obs_mean_then_sigma_witness :
    (([[Fl.fin 0, Fl.fin 4]] : List (List Fl)).getD 0 [] = [(0:ℝ), 4].map Fl.fin)
    ∧ (2 ≤ ([(0:ℝ), 4] : List ℝ).length)
    ∧ ((0:ℝ) < 1)
    ∧ Fl.lt (Fl.fin 0)
        ((sample ⟨PyVal.int 1, [Fl.fin 0], [Fl.fin 2], true⟩ [[Fl.fin 0, Fl.fin 4]]
          (fun _ => 1) (fun _ => 1)).1.sigmas.getD 0 Fl.nan) := by
  have happ := sample_two_obs_mean_then_sigma ⟨PyVal.int 1, [Fl.fin 0], [Fl.fin 2], true⟩
    1 rfl [[Fl.fin 0, Fl.fin 4]] (fun _ => 1) (fun _ => 1) rfl rfl 0 (by omega)
    [(0:ℝ), 4] rfl (by norm_num) 2 rfl (by norm_num)
  refine ⟨rfl, by norm_num, by norm_num, ?_⟩
  refine happ.2.2 ⟨0, by norm_num, ne_of_lt ?_⟩
  norm_num
  positivity

/-- Witness for the C7 theorem: one state with sigma 2 and the single
observation 7, draw Z = 3. -/
theorem sample_single_obs_updates_mean_only_witness :
    (([[Fl.fin 7]] : List (List Fl)).getD 0 [] = [Fl.fin 7])
    ∧ ((sample ⟨PyVal.int 1, [Fl.fin 1], [Fl.fin 2], true⟩ [[Fl.fin 7]]
          (fun _ => 3) (fun _ => 1)).1.means.getD 0 Fl.nan
        = Fl.fin (3 * 2 / Real.sqrt 1 + 7)
      ∧ (sample ⟨PyVal.int 1, [Fl.fin 1], [Fl.fin 2], true⟩ [[Fl.fin 7]]
          (fun _ => 3) (fun _ => 1)).1.sigmas.getD 0 Fl.nan
        = (⟨PyVal.int 1, [Fl.fin 1], [Fl.fin 2], true⟩ : GOM).sigmas.getD 0 Fl.nan) :=
  ⟨rfl, sample_single_obs_updates_mean_only ⟨PyVal.int 1, [Fl.fin 1], [Fl.fin 2], true⟩
    1 rfl [[Fl.fin 7]] (fun _ => 3) (fun _ => 1) rfl rfl 0 (by omega) 7 rfl 2 rfl⟩

/-- Witness for the C8 theorem: two states, the first with no observations,
the second with one observation. -/
theorem sample_empty_state_warns_and_skips_witness :
    (([[], [Fl.fin 5]] : List (List Fl)).getD 0 [] = [])
    ∧ (0 ∈ (sample ⟨PyVal.int 2, [Fl.fin 1, Fl.fin 2], [Fl.fin 3, Fl.fin 4], true⟩
          [[], [Fl.fin 5]] (fun _ => 1) (fun _ => 1)).2.1
      ∧ (sample ⟨PyVal.int 2, [Fl.fin 1, Fl.fin 2], [Fl.fin 3, Fl.fin 4], true⟩
          [[], [Fl.fin 5]] (fun _ => 1) (fun _ => 1)).1.means.getD 0 Fl.nan
        = (⟨PyVal.int 2, [Fl.fin 1, Fl.fin 2], [Fl.fin 3, Fl.fin 4], true⟩ : GOM).means.getD 0 Fl.nan
      ∧ (sample ⟨PyVal.int 2, [Fl.fin 1, Fl.fin 2], [Fl.fin 3, Fl.fin 4], true⟩
          [[], [Fl.fin 5]] (fun _ => 1) (fun _ => 1)).1.sigmas.getD 0 Fl.nan
        = (⟨PyVal.int 2, [Fl.fin 1, Fl.fin 2], [Fl.fin 3, Fl.fin 4], true⟩ : GOM).sigmas.getD 0 Fl.nan
      ∧ (sample ⟨PyVal.int 2, [Fl.fin 1, Fl.fin 2], [Fl.fin 3, Fl.fin 4], true⟩
          [[], [Fl.fin 5]] (fun _ => 1) (fun _ => 1)).2.2 = none
      ∧ (∀ j, j < 2 → j ≠ 0 → 0 < (([[], [Fl.fin 5]] : List (List Fl)).getD j []).length →
          (sample ⟨PyVal.int 2, [Fl.fin 1, Fl.fin 2], [Fl.fin 3, Fl.fin 4], true⟩
            [[], [Fl.fin 5]] (fun _ => 1) (fun _ => 1)).1.means.getD j Fl.nan
            = Fl.add (Fl.div (Fl.mul (Fl.fin 1)
                ((⟨PyVal.int 2, [Fl.fin 1, Fl.fin 2], [Fl.fin 3, Fl.fin 4], true⟩ : GOM).sigmas.getD j Fl.nan))
                (Fl.fin (Real.sqrt ((([[], [Fl.fin 5]] : List (List Fl)).getD j []).length : ℝ))))
              (meanFl (([[], [Fl.fin 5]] : List (List Fl)).getD j [])))) :=
  ⟨rfl, sample_empty_state_warns_and_skips
    ⟨PyVal.int 2, [Fl.fin 1, Fl.fin 2], [Fl.fin 3, Fl.fin 4], true⟩ 2 rfl
    [[], [Fl.fin 5]] (fun _ => 1) (fun _ => 1) rfl rfl 0 (by omega) rfl⟩

/-- Witness for the C9 theorem: a one-state model, the state sequence
[0, 0], and draw 5 at every step. -/
theorem generate_trajectory_matches_single_draws_witness :
    ((0:ℕ) < ([0, 0] : List ℕ).length)
    ∧ (generateObservationTrajectory ⟨PyVal.int 1, [Fl.fin 4], [Fl.fin 2], true⟩
        [0, 0] (fun _ => 5)).1 = ⟨PyVal.int 1, [Fl.fin 4], [Fl.fin 2], true⟩
    ∧ (generateObservationTrajectory ⟨PyVal.int 1, [Fl.fin 4], [Fl.fin 2], true⟩
        [0, 0] (fun _ => 5)).2.getD 0 Fl.nan = Fl.fin (2 * 5 + 4) := by
  have happ := generate_trajectory_matches_single_draws
    ⟨PyVal.int 1, [Fl.fin 4], [Fl.fin 2], true⟩ [0, 0] (fun _ => 5)
  exact ⟨by norm_num, happ.1, (happ.2.2 0 (by norm_num)).2 2 4 rfl rfl⟩
